import Mathlib

/-!
Verification of the local storage manager (`stores/local.go`).

The Go source is embedded shallowly: machine integers holding bit-flag sets
become `Nat` with `&&&`/`|||`/`^^^`, the external metadata index and the
filesystem become explicit oracles (structures of pure functions), and the
side effects of lifecycle operations are reified as an event trace paired
with an optional error.  Definitions follow the Go source line by line;
definitions that come from parts of the repository outside the provided
source are marked `Modelled from the spec:` in their doc comments.
-/

namespace SectorStorage

/-- StorageID: opaque string identifier of one storage path (`stores.ID`). -/
abbrev ID := String

/-- Modelled from the spec: SectorID is an opaque compound identifier
(miner scope + sequence number), never interpreted beyond equality and
formatting. -/
structure SectorID where
  miner : Nat
  number : Nat
deriving DecidableEq, Repr

/-- Modelled from the spec: `SectorName` renders a SectorID as the stable
textual encoding used as the on-disk file name. -/
def SectorName (sid : SectorID) : String :=
  "s-t0" ++ toString sid.miner ++ "-" ++ toString sid.number

/-- File types are single-bit flags; sets of file types are bitwise unions.
`SectorFileType` is the Go `SectorFileType` integer. -/
abbrev SectorFileType := Nat

/-- Modelled from the spec: the unsealed artifact kind (bit 0). -/
def FTUnsealed : SectorFileType := 1
/-- Modelled from the spec: the sealed artifact kind (bit 1). -/
def FTSealed : SectorFileType := 2
/-- Modelled from the spec: the cache artifact kind (bit 2). -/
def FTCache : SectorFileType := 4
/-- Modelled from the spec: the empty file-type set. -/
def FTNone : SectorFileType := 0

/-- `var PathTypes = []SectorFileType{FTUnsealed, FTSealed, FTCache}` -/
def PathTypes : List SectorFileType := [FTUnsealed, FTSealed, FTCache]

/-- Modelled from the spec: `FileType.String()`, the subdirectory name of
each artifact kind (`unsealed`/`sealed`/`cache`). -/
def ftString (t : SectorFileType) : String :=
  if t = FTUnsealed then "unsealed"
  else if t = FTSealed then "sealed"
  else if t = FTCache then "cache"
  else ""

/-- Modelled from the spec: PathType is the purpose of an allocation request,
{Sealing, Storage}, a boolean in the Go source. -/
abbrev PathType := Bool

/-- Modelled from the spec: the sealing purpose. -/
def PathSealing : PathType := true
/-- Modelled from the spec: the storage purpose. -/
def PathStorage : PathType := false

/-- Modelled from the spec: the acquire mode (move / copy); informational to
the caller, never branched on inside the engine. -/
inductive AcquireMode where
  | move
  | copy
deriving DecidableEq, Repr

/-- Modelled from the spec: opaque proof-parameters token
(`abi.RegisteredProof`). -/
abbrev RegisteredProof := Nat

/-- Per-StorageID metadata owned by the external index (`stores.StorageInfo`). -/
structure StorageInfo where
  ID : ID
  URLs : List String
  Weight : Nat
  CanSeal : Bool
  CanStore : Bool
deriving DecidableEq, Repr

/-- One holder entry returned by the index's `StorageFindSector`
(StorageID plus the primary flag). -/
structure SectorStorageInfo where
  ID : ID
  Primary : Bool
deriving DecidableEq, Repr

/-- Modelled from the spec: `SectorPaths`, a value type holding one optional
path / StorageID string per file type (Go zero value: all fields `""`). -/
structure SectorPaths where
  Unsealed : String := ""
  Sealed : String := ""
  Cache : String := ""
deriving DecidableEq, Repr

/-- The all-empty `SectorPaths` (`var out SectorPaths` in Go). -/
def emptySectorPaths : SectorPaths := {}

/-- Modelled from the spec: `SetPathByType` writes the field matching the
(single-bit) file type; other values leave the record unchanged. -/
def SetPathByType (sps : SectorPaths) (ft : SectorFileType) (p : String) : SectorPaths :=
  if ft = FTUnsealed then { sps with Unsealed := p }
  else if ft = FTSealed then { sps with Sealed := p }
  else if ft = FTCache then { sps with Cache := p }
  else sps

/-- Modelled from the spec: `PathByType` reads the field matching the
(single-bit) file type. -/
def PathByType (sps : SectorPaths) (ft : SectorFileType) : String :=
  if ft = FTUnsealed then sps.Unsealed
  else if ft = FTSealed then sps.Sealed
  else if ft = FTCache then sps.Cache
  else ""

/-- `filepath.Join` on the three components `<root>/<typename>/<sectorid>`. -/
def filepathJoin3 (a b c : String) : String :=
  a ++ "/" ++ b ++ "/" ++ c

/-- `bits.OnesCount`: number of set bits of a natural number. -/
def onesCount (n : Nat) : Nat :=
  ((List.range (n + 1)).filter (fun i => n.testBit i)).length

/-- The external metadata index (`stores.SectorIndex`), as a pure oracle:
each call is a function of its arguments, returning a value or an error. -/
structure SectorIndex where
  StorageFindSector : SectorID → SectorFileType → Bool → Except String (List SectorStorageInfo)
  StorageBestAlloc : SectorFileType → RegisteredProof → PathType → Except String (List StorageInfo)
  StorageInfoOf : ID → Except String StorageInfo
  StorageDropSector : ID → SectorID → SectorFileType → Except String Unit
  StorageDeclareSector : ID → SectorID → SectorFileType → Bool → Except String Unit

/-- In-process record for one registered path (`type path struct`); `loc` is
the Go field `local`, the absolute local mount root. -/
structure path where
  loc : String
deriving DecidableEq, Repr

/-- The in-process registry: the `paths map[ID]*path` table of `Local`,
as an association list. -/
structure Local where
  paths : List (ID × path)
deriving DecidableEq, Repr

/-- Map lookup `st.paths[storage]`. -/
def Local.findPath (st : Local) (i : ID) : Option path :=
  (st.paths.find? (fun e => e.1 == i)).map (fun e => e.2)

/-- The mount root registered for a StorageID (`""` when unregistered). -/
def locOf (st : Local) (i : ID) : String :=
  match st.findPath i with
  | none => ""
  | some p => p.loc

/-- The filesystem oracle for the effects lifecycle operations perform:
whether `os.RemoveAll` and `move` succeed on given paths. -/
structure FsEnv where
  removeAllOk : String → Bool
  moveOk : String → String → Bool

/-- Observable side effects of the lifecycle operations, in execution order. -/
inductive Event where
  | dropIndex (storage : ID) (sid : SectorID) (typ : SectorFileType)
  | deleteFile (spath : String)
  | logDeleteError (spath : String)
  | moveFile (src dst : String)
  | declareSector (storage : ID) (sid : SectorID) (typ : SectorFileType) (primary : Bool)
deriving DecidableEq, Repr

/-- The errors `AcquireSector` can return. -/
inductive AcquireError where
  | conflictingFileTypeRequest
  | storageBestAllocFailed (e : String)
  | noSuitableStorage
deriving DecidableEq, Repr

/-- The inner candidate scan of the `existing` branch of `AcquireSector`
(lines 222-238): first candidate that is registered with a non-empty mount
root wins, and scanning stops (`break`), after clearing the type's bit. -/
def existingScan (st : Local) (sid : SectorID) (fileType : SectorFileType) :
    List SectorStorageInfo → SectorPaths → SectorPaths → SectorFileType →
    SectorPaths × SectorPaths × SectorFileType
  | [], out, ids, existing => (out, ids, existing)
  | info :: rest, out, ids, existing =>
    match st.findPath info.ID with
    | none => existingScan st sid fileType rest out ids existing
    | some p =>
      if p.loc = "" then existingScan st sid fileType rest out ids existing
      else
        (SetPathByType out fileType (filepathJoin3 p.loc (ftString fileType) (SectorName sid)),
         SetPathByType ids fileType info.ID,
         existing ^^^ fileType)

/-- The `existing` loop of `AcquireSector` (lines 211-239): for each file type
whose bit is set, query `StorageFindSector`; an index error is logged and the
type is skipped (`continue`). -/
def existingLoop (st : Local) (index : SectorIndex) (sid : SectorID) :
    List SectorFileType → SectorFileType → SectorPaths → SectorPaths →
    SectorPaths × SectorPaths × SectorFileType
  | [], existing, out, ids => (out, ids, existing)
  | fileType :: rest, existing, out, ids =>
    if fileType &&& existing = 0 then
      existingLoop st index sid rest existing out ids
    else
      match index.StorageFindSector sid fileType false with
      | .error _ => existingLoop st index sid rest existing out ids
      | .ok si =>
        match existingScan st sid fileType si out ids existing with
        | (out', ids', existing') => existingLoop st index sid rest existing' out' ids'

/-- The inner candidate scan of the `allocate` branch (lines 254-276): skip
candidates that are unregistered, have an empty mount root, or lack the
capability required by the path type; each surviving candidate overwrites
`best`/`bestID`, so the last survivor wins. -/
def allocScan (st : Local) (pt : PathType) (sid : SectorID) (fileType : SectorFileType) :
    List StorageInfo → String → ID → String × ID
  | [], best, bestID => (best, bestID)
  | si :: rest, best, bestID =>
    match st.findPath si.ID with
    | none => allocScan st pt sid fileType rest best bestID
    | some p =>
      if p.loc = "" then allocScan st pt sid fileType rest best bestID
      else if pt = PathSealing ∧ si.CanSeal = false then
        allocScan st pt sid fileType rest best bestID
      else if pt = PathStorage ∧ si.CanStore = false then
        allocScan st pt sid fileType rest best bestID
      else
        allocScan st pt sid fileType rest
          (filepathJoin3 p.loc (ftString fileType) (SectorName sid)) si.ID

/-- The `allocate` loop of `AcquireSector` (lines 241-285): for each file type
whose bit is set, query `StorageBestAlloc` (an error is fatal), scan the
candidates, and fail with `noSuitableStorage` when no candidate survives. -/
def allocLoop (st : Local) (index : SectorIndex) (sid : SectorID) (spt : RegisteredProof)
    (pt : PathType) :
    List SectorFileType → SectorFileType → SectorPaths → SectorPaths →
    Except AcquireError (SectorPaths × SectorPaths × SectorFileType)
  | [], allocate, out, ids => .ok (out, ids, allocate)
  | fileType :: rest, allocate, out, ids =>
    if fileType &&& allocate = 0 then
      allocLoop st index sid spt pt rest allocate out ids
    else
      match index.StorageBestAlloc fileType spt pt with
      | .error e => .error (.storageBestAllocFailed e)
      | .ok sis =>
        match allocScan st pt sid fileType sis "" "" with
        | (best, bestID) =>
          if best = "" then .error .noSuitableStorage
          else
            allocLoop st index sid spt pt rest (allocate ^^^ fileType)
              (SetPathByType out fileType best) (SetPathByType ids fileType bestID)

/-- `AcquireSector` (lines 200-288): reject overlapping `existing`/`allocate`
sets, then resolve existing files (first usable holder per type) and
allocation targets (last surviving best-alloc candidate per type). -/
def AcquireSector (st : Local) (index : SectorIndex) (sid : SectorID)
    (spt : RegisteredProof) (existing allocate : SectorFileType) (pt : PathType)
    (op : AcquireMode) : Except AcquireError (SectorPaths × SectorPaths) :=
  if existing ||| allocate ≠ existing ^^^ allocate then
    .error .conflictingFileTypeRequest
  else
    match existingLoop st index sid PathTypes existing emptySectorPaths emptySectorPaths with
    | (out, ids, _) =>
      match allocLoop st index sid spt pt PathTypes allocate out ids with
      | .error e => .error e
      | .ok (out', ids', _) => .ok (out', ids')

/-- The errors `Remove`/`RemoveCopies` can return. -/
inductive RemoveError where
  | singleFileTypeRequired
  | findFailed (e : String)
  | sectorNotFound
  | dropFailed (e : String)
deriving DecidableEq, Repr

/-- `removeSector` (lines 376-398): skip unregistered storages and empty
mount roots; drop the sector from the index (an index error is fatal),
then best-effort delete the on-disk file (`os.RemoveAll` failure is only
logged).  Returns the trace of effects plus an optional fatal error. -/
def removeSector (st : Local) (index : SectorIndex) (fs : FsEnv) (sid : SectorID)
    (typ : SectorFileType) (storage : ID) : List Event × Option RemoveError :=
  match st.findPath storage with
  | none => ([], none)
  | some p =>
    if p.loc = "" then ([], none)
    else
      match index.StorageDropSector storage sid typ with
      | .error e => ([], some (.dropFailed e))
      | .ok _ =>
        let spath := filepathJoin3 p.loc (ftString typ) (SectorName sid)
        if fs.removeAllOk spath then
          ([.dropIndex storage sid typ, .deleteFile spath], none)
        else
          ([.dropIndex storage sid typ, .deleteFile spath, .logDeleteError spath], none)

/-- The holder loop of `Remove` (lines 331-335): remove every holder in
order, aborting on the first fatal error (keeping the trace so far). -/
def removeLoop (st : Local) (index : SectorIndex) (fs : FsEnv) (sid : SectorID)
    (typ : SectorFileType) : List SectorStorageInfo → List Event × Option RemoveError
  | [] => ([], none)
  | info :: rest =>
    match removeSector st index fs sid typ info.ID with
    | (evs, some e) => (evs, some e)
    | (evs, none) =>
      match removeLoop st index fs sid typ rest with
      | (evs', r) => (evs ++ evs', r)

/-- `Remove` (lines 317-338): requires exactly one file-type bit; with zero
holders it fails with `sectorNotFound` unless `force`; otherwise removes
every holder reported by the index. -/
def Remove (st : Local) (index : SectorIndex) (fs : FsEnv) (sid : SectorID)
    (typ : SectorFileType) (force : Bool) : List Event × Option RemoveError :=
  if onesCount typ ≠ 1 then ([], some .singleFileTypeRequired)
  else
    match index.StorageFindSector sid typ false with
    | .error e => ([], some (.findFailed e))
    | .ok si =>
      if si.length = 0 ∧ force = false then ([], some .sectorNotFound)
      else removeLoop st index fs sid typ si

/-- The holder loop of `RemoveCopies` (lines 363-371): like `Remove`'s loop
but holders marked primary are skipped (`continue`). -/
def removeCopiesLoop (st : Local) (index : SectorIndex) (fs : FsEnv) (sid : SectorID)
    (typ : SectorFileType) : List SectorStorageInfo → List Event × Option RemoveError
  | [] => ([], none)
  | info :: rest =>
    if info.Primary then removeCopiesLoop st index fs sid typ rest
    else
      match removeSector st index fs sid typ info.ID with
      | (evs, some e) => (evs, some e)
      | (evs, none) =>
        match removeCopiesLoop st index fs sid typ rest with
        | (evs', r) => (evs ++ evs', r)

/-- `RemoveCopies` (lines 340-374): requires exactly one file-type bit; when
no holder is marked primary it is a logged no-op; otherwise every
non-primary holder is removed. -/
def RemoveCopies (st : Local) (index : SectorIndex) (fs : FsEnv) (sid : SectorID)
    (typ : SectorFileType) : List Event × Option RemoveError :=
  if onesCount typ ≠ 1 then ([], some .singleFileTypeRequired)
  else
    match index.StorageFindSector sid typ false with
    | .error e => ([], some (.findFailed e))
    | .ok si =>
      if si.any (fun info => info.Primary) then removeCopiesLoop st index fs sid typ si
      else ([], none)

/-- The errors `MoveStorage` can return. -/
inductive MoveError where
  | acquireDest (e : AcquireError)
  | acquireSrc (e : AcquireError)
  | srcInfoFailed (e : String)
  | dstInfoFailed (e : String)
  | dropFailed (e : String)
  | moveFailed
  | declareFailed (e : String)
deriving DecidableEq, Repr

/-- The per-type loop of `MoveStorage` (lines 411-450): skip a type when the
resolved source and destination infos carry the same StorageID or the source
can store; otherwise drop the source holder from the index, attempt the
filesystem move, and declare the destination holder with primary status. -/
def moveLoop (st : Local) (index : SectorIndex) (fs : FsEnv) (s : SectorID)
    (dest destIds src srcIds : SectorPaths) :
    List SectorFileType → SectorFileType → List Event × Option MoveError
  | [], _ => ([], none)
  | fileType :: rest, types =>
    if fileType &&& types = 0 then
      moveLoop st index fs s dest destIds src srcIds rest types
    else
      match index.StorageInfoOf (PathByType srcIds fileType) with
      | .error e => ([], some (.srcInfoFailed e))
      | .ok sst =>
        match index.StorageInfoOf (PathByType destIds fileType) with
        | .error e => ([], some (.dstInfoFailed e))
        | .ok dst =>
          if sst.ID = dst.ID then
            moveLoop st index fs s dest destIds src srcIds rest types
          else if sst.CanStore then
            moveLoop st index fs s dest destIds src srcIds rest types
          else
            match index.StorageDropSector (PathByType srcIds fileType) s fileType with
            | .error e => ([], some (.dropFailed e))
            | .ok _ =>
              let srcp := PathByType src fileType
              let dstp := PathByType dest fileType
              if fs.moveOk srcp dstp then
                match index.StorageDeclareSector (PathByType destIds fileType) s fileType true with
                | .error e =>
                  ([.dropIndex (PathByType srcIds fileType) s fileType, .moveFile srcp dstp],
                   some (.declareFailed e))
                | .ok _ =>
                  match moveLoop st index fs s dest destIds src srcIds rest types with
                  | (evs, r) =>
                    ([.dropIndex (PathByType srcIds fileType) s fileType, .moveFile srcp dstp,
                      .declareSector (PathByType destIds fileType) s fileType true] ++ evs, r)
              else
                ([.dropIndex (PathByType srcIds fileType) s fileType, .moveFile srcp dstp],
                 some .moveFailed)

/-- `MoveStorage` (lines 400-453): resolve a destination
(`AcquireSector(existing=none, allocate=types)`) and a source
(`AcquireSector(existing=types, allocate=none)`), both with the storage path
type, then run the per-type move loop. -/
def MoveStorage (st : Local) (index : SectorIndex) (fs : FsEnv) (s : SectorID)
    (spt : RegisteredProof) (types : SectorFileType) : List Event × Option MoveError :=
  match AcquireSector st index s spt FTNone types PathStorage AcquireMode.move with
  | .error e => ([], some (.acquireDest e))
  | .ok (dest, destIds) =>
    match AcquireSector st index s spt types FTNone PathStorage AcquireMode.move with
    | .error e => ([], some (.acquireSrc e))
    | .ok (src, srcIds) =>
      moveLoop st index fs s dest destIds src srcIds PathTypes types

/-- A holder from `StorageFindSector` is usable by the `existing` branch iff
its StorageID is registered with a non-empty mount root. -/
def existUsable (st : Local) (info : SectorStorageInfo) : Bool :=
  match st.findPath info.ID with
  | none => false
  | some p => decide (p.loc ≠ "")

/-- A `StorageBestAlloc` candidate survives the `allocate` branch's filter iff
it is registered with a non-empty mount root and has the capability required
by the path type. -/
def allocUsable (st : Local) (pt : PathType) (si : StorageInfo) : Bool :=
  match st.findPath si.ID with
  | none => false
  | some p =>
    decide (p.loc ≠ "") && !(decide (pt = PathSealing ∧ si.CanSeal = false))
      && !(decide (pt = PathStorage ∧ si.CanStore = false))

/-- The last candidate of a list surviving the `allocate` filter, if any. -/
def lastUsable (st : Local) (pt : PathType) : List StorageInfo → Option StorageInfo
  | [] => none
  | si :: rest =>
    match lastUsable st pt rest with
    | some c => some c
    | none => if allocUsable st pt si then some si else none

/-- The sleep interval computed by `reportHealth` (line 169):
`(HeartbeatInterval*100_000 + rand.Int63n(10_000)) / 100_000` in integer
(nanosecond `Duration`) arithmetic, with the random draw `r < 10_000`. -/
def reportHealthInterval (HeartbeatInterval r : Nat) : Nat :=
  (HeartbeatInterval * 100000 + r) / 100000

/-! ### Bit-set toolkit -/

theorem land_zero (a : Nat) : a &&& 0 = 0 :=
  Nat.eq_of_testBit_eq fun i => by simp [Nat.testBit_land, Nat.zero_testBit]

theorem zero_land (a : Nat) : 0 &&& a = 0 :=
  Nat.eq_of_testBit_eq fun i => by simp [Nat.testBit_land, Nat.zero_testBit]

theorem land_self (a : Nat) : a &&& a = a :=
  Nat.eq_of_testBit_eq fun i => by simp [Nat.testBit_land]

theorem land_xor_distrib (a b c : Nat) : a &&& (b ^^^ c) = (a &&& b) ^^^ (a &&& c) :=
  Nat.eq_of_testBit_eq fun i => by
    simp only [Nat.testBit_land, Nat.testBit_xor]
    cases a.testBit i <;> cases b.testBit i <;> cases c.testBit i <;> rfl

theorem xor_land_distrib (a b c : Nat) : (a ^^^ b) &&& c = (a &&& c) ^^^ (b &&& c) :=
  Nat.eq_of_testBit_eq fun i => by
    simp only [Nat.testBit_land, Nat.testBit_xor]
    cases a.testBit i <;> cases b.testBit i <;> cases c.testBit i <;> rfl

/-- The disjointness test of `AcquireSector` line 201: `a|b == a^b` holds iff
the two bit sets are disjoint. -/
theorem lor_eq_xor_iff (a b : Nat) : a ||| b = a ^^^ b ↔ a &&& b = 0 := by
  constructor
  · intro h
    apply Nat.eq_of_testBit_eq
    intro i
    have hb := congrArg (fun x => Nat.testBit x i) h
    simp only [Nat.testBit_lor, Nat.testBit_xor] at hb
    simp only [Nat.testBit_land, Nat.zero_testBit]
    cases ha : a.testBit i <;> cases hb2 : b.testBit i <;> simp_all
  · intro h
    apply Nat.eq_of_testBit_eq
    intro i
    have hb := congrArg (fun x => Nat.testBit x i) h
    simp only [Nat.testBit_land, Nat.zero_testBit] at hb
    simp only [Nat.testBit_lor, Nat.testBit_xor]
    cases ha : a.testBit i <;> cases hb2 : b.testBit i <;> simp_all

theorem land_xor_cancel {a c : Nat} (h : a &&& c = 0) (b : Nat) :
    a &&& (b ^^^ c) = a &&& b := by
  rw [land_xor_distrib, h, Nat.xor_zero]

theorem pow2_land (k x : Nat) : 2 ^ k &&& x = if x.testBit k then 2 ^ k else 0 := by
  by_cases h : x.testBit k = true
  · rw [if_pos h]
    apply Nat.eq_of_testBit_eq
    intro i
    simp only [Nat.testBit_land, Nat.testBit_two_pow]
    by_cases hik : k = i
    · subst hik; simp [h]
    · simp [hik]
  · have h' : x.testBit k = false := by
      cases hx : x.testBit k
      · rfl
      · exact absurd hx h
    rw [if_neg h]
    apply Nat.eq_of_testBit_eq
    intro i
    simp only [Nat.testBit_land, Nat.testBit_two_pow, Nat.zero_testBit]
    by_cases hik : k = i
    · subst hik; simp [h']
    · simp [hik]

theorem mem_pathTypes_iff {ft : Nat} : ft ∈ PathTypes ↔ ft = 1 ∨ ft = 2 ∨ ft = 4 := by
  simp [PathTypes, FTUnsealed, FTSealed, FTCache]

/-- A path-type flag sharing a bit with a set is contained in the set. -/
theorem pathTypes_land_eq {ft x : Nat} (hft : ft ∈ PathTypes) (h : ft &&& x ≠ 0) :
    ft &&& x = ft := by
  have key : ∀ k, 2 ^ k &&& x ≠ 0 → 2 ^ k &&& x = 2 ^ k := by
    intro k hk
    rw [pow2_land] at hk ⊢
    cases hxk : x.testBit k
    · rw [if_neg] at hk
      · exact absurd rfl hk
      · simp [hxk]
    · simp [hxk]
  rcases mem_pathTypes_iff.1 hft with h1 | h1 | h1 <;> subst h1
  · exact key 0 h
  · exact key 1 h
  · exact key 2 h

/-! ### SectorPaths toolkit -/

theorem PathByType_empty (ft : Nat) : PathByType emptySectorPaths ft = "" := by
  simp only [PathByType, emptySectorPaths]
  split_ifs <;> rfl

theorem PathByType_SetPathByType_same {sps : SectorPaths} {v : String} {ft : Nat}
    (hft : ft ∈ PathTypes) : PathByType (SetPathByType sps ft v) ft = v := by
  rcases mem_pathTypes_iff.1 hft with h | h | h <;> subst h <;>
    simp [SetPathByType, PathByType, FTUnsealed, FTSealed, FTCache]

theorem PathByType_SetPathByType_ne {sps : SectorPaths} {v : String} {ft ft' : Nat}
    (h : ft ≠ ft') : PathByType (SetPathByType sps ft' v) ft = PathByType sps ft := by
  by_cases h1 : ft' = FTUnsealed
  · subst h1
    simp only [SetPathByType, if_pos rfl, PathByType]
    simp [FTUnsealed, FTSealed, FTCache] at h ⊢
    split_ifs <;> simp_all
  · by_cases h2 : ft' = FTSealed
    · subst h2
      simp only [SetPathByType, PathByType]
      simp [FTUnsealed, FTSealed, FTCache] at h h1 ⊢
      split_ifs <;> simp_all
    · by_cases h3 : ft' = FTCache
      · subst h3
        simp only [SetPathByType, PathByType]
        simp [FTUnsealed, FTSealed, FTCache] at h h1 h2 ⊢
        split_ifs <;> simp_all
      · simp [SetPathByType, h1, h2, h3]

theorem filepathJoin3_ne_empty (a b c : String) : filepathJoin3 a b c ≠ "" := by
  intro h
  have hl := congrArg String.length h
  rw [filepathJoin3] at hl
  simp only [String.length_append] at hl
  have h1 : ("/" : String).length = 1 := rfl
  have h2 : ("" : String).length = 0 := rfl
  omega

/-! ### Characterization of the candidate scans -/

theorem lastUsable_cons_of_neg {st : Local} {pt : PathType} {si : StorageInfo}
    {rest : List StorageInfo} (h : allocUsable st pt si = false) :
    lastUsable st pt (si :: rest) = lastUsable st pt rest := by
  rw [lastUsable]
  cases lastUsable st pt rest <;> simp [h]

theorem lastUsable_cons_of_pos {st : Local} {pt : PathType} {si : StorageInfo}
    {rest : List StorageInfo} (h : allocUsable st pt si = true) :
    lastUsable st pt (si :: rest) =
      match lastUsable st pt rest with
      | some c => some c
      | none => some si := by
  rw [lastUsable]
  cases lastUsable st pt rest <;> simp [h]

/-- The `existing` candidate scan takes exactly the first usable candidate. -/
theorem existingScan_eq (st : Local) (sid : SectorID) (ft : SectorFileType)
    (si : List SectorStorageInfo) (out ids : SectorPaths) (existing : Nat) :
    existingScan st sid ft si out ids existing =
      match si.find? (existUsable st) with
      | none => (out, ids, existing)
      | some c =>
        (SetPathByType out ft (filepathJoin3 (locOf st c.ID) (ftString ft) (SectorName sid)),
         SetPathByType ids ft c.ID, existing ^^^ ft) := by
  induction si generalizing out ids existing with
  | nil => rfl
  | cons info rest ih =>
    cases hf : st.findPath info.ID with
    | none =>
      have hu : ¬ existUsable st info = true := by simp [existUsable, hf]
      simp only [existingScan, hf]
      rw [List.find?_cons_of_neg _ hu]
      exact ih out ids existing
    | some p =>
      by_cases hloc : p.loc = ""
      · have hu : ¬ existUsable st info = true := by simp [existUsable, hf, hloc]
        simp only [existingScan, hf]
        rw [if_pos hloc, List.find?_cons_of_neg _ hu]
        exact ih out ids existing
      · have hu : existUsable st info = true := by simp [existUsable, hf, hloc]
        have hlo : locOf st info.ID = p.loc := by simp [locOf, hf]
        simp only [existingScan, hf]
        rw [if_neg hloc, List.find?_cons_of_pos _ hu]
        simp [hlo]

/-- The `allocate` candidate scan resolves to the last usable candidate. -/
theorem allocScan_eq (st : Local) (pt : PathType) (sid : SectorID) (ft : SectorFileType)
    (sis : List StorageInfo) (best : String) (bestID : ID) :
    allocScan st pt sid ft sis best bestID =
      match lastUsable st pt sis with
      | none => (best, bestID)
      | some c => (filepathJoin3 (locOf st c.ID) (ftString ft) (SectorName sid), c.ID) := by
  induction sis generalizing best bestID with
  | nil => rfl
  | cons si rest ih =>
    cases hf : st.findPath si.ID with
    | none =>
      have hu : allocUsable st pt si = false := by simp [allocUsable, hf]
      simp only [allocScan, hf]
      rw [lastUsable_cons_of_neg hu]
      exact ih best bestID
    | some p =>
      by_cases hloc : p.loc = ""
      · have hu : allocUsable st pt si = false := by simp [allocUsable, hf, hloc]
        simp only [allocScan, hf]
        rw [if_pos hloc, lastUsable_cons_of_neg hu]
        exact ih best bestID
      · by_cases hseal : pt = PathSealing ∧ si.CanSeal = false
        · have hu : allocUsable st pt si = false := by
            simp [allocUsable, hf, hseal.1, hseal.2]
          simp only [allocScan, hf]
          rw [if_neg hloc, if_pos hseal, lastUsable_cons_of_neg hu]
          exact ih best bestID
        · by_cases hstore : pt = PathStorage ∧ si.CanStore = false
          · have hu : allocUsable st pt si = false := by
              simp [allocUsable, hf, hstore.1, hstore.2]
            simp only [allocScan, hf]
            rw [if_neg hloc, if_neg hseal, if_pos hstore, lastUsable_cons_of_neg hu]
            exact ih best bestID
          · have hu : allocUsable st pt si = true := by
              simp [allocUsable, hf, hloc, hseal, hstore]
            have hlo : locOf st si.ID = p.loc := by simp [locOf, hf]
            simp only [allocScan, hf]
            rw [if_neg hloc, if_neg hseal, if_neg hstore, lastUsable_cons_of_pos hu, ih]
            cases lastUsable st pt rest <;> simp [hlo]

/-! ### The allocate loop -/

/-- The allocate loop never reports a conflicting-request error. -/
theorem allocLoop_ne_conflict (st : Local) (index : SectorIndex) (sid : SectorID)
    (spt : RegisteredProof) (pt : PathType) :
    ∀ (fts : List SectorFileType) (allocate : Nat) (out ids : SectorPaths),
    allocLoop st index sid spt pt fts allocate out ids ≠
      .error .conflictingFileTypeRequest := by
  intro fts
  induction fts with
  | nil => intro allocate out ids h; simp [allocLoop] at h
  | cons ft rest ih =>
    intro allocate out ids
    by_cases hb : ft &&& allocate = 0
    · simp only [allocLoop, if_pos hb]
      exact ih allocate out ids
    · cases hba : index.StorageBestAlloc ft spt pt with
      | error e => simp [allocLoop, if_neg hb, hba]
      | ok sis =>
        simp only [allocLoop, if_neg hb, hba]
        rw [allocScan_eq]
        cases hlast : lastUsable st pt sis with
        | none => simp [hlast]
        | some c =>
          simp only [hlast]
          rw [if_neg (filepathJoin3_ne_empty (locOf st c.ID) (ftString ft)
            (SectorName sid))]
          exact ih (allocate ^^^ ft) _ _

/-- If every requested type has a successful index response with at least one
surviving candidate, the allocate loop succeeds. -/
theorem allocLoop_total_ok (st : Local) (index : SectorIndex) (sid : SectorID)
    (spt : RegisteredProof) (pt : PathType) :
    ∀ (fts : List SectorFileType) (allocate : Nat) (out ids : SectorPaths),
      (∀ x ∈ fts, x ∈ PathTypes) →
      (∀ a ∈ fts, ∀ b ∈ fts, a ≠ b → a &&& b = 0) →
      (∀ ft ∈ fts, ft &&& allocate ≠ 0 →
        ∃ sis, index.StorageBestAlloc ft spt pt = .ok sis ∧ lastUsable st pt sis ≠ none) →
      ∃ out' ids' rem, allocLoop st index sid spt pt fts allocate out ids =
        .ok (out', ids', rem) := by
  intro fts
  induction fts with
  | nil => intro allocate out ids _ _ _; exact ⟨out, ids, allocate, rfl⟩
  | cons ft rest ih =>
    intro allocate out ids hsub hdisj hall
    by_cases hb : ft &&& allocate = 0
    · simp only [allocLoop, if_pos hb]
      exact ih allocate out ids (fun x hx => hsub x (List.mem_cons_of_mem _ hx))
        (fun a ha b hb' hab => hdisj a (List.mem_cons_of_mem _ ha)
          b (List.mem_cons_of_mem _ hb') hab)
        (fun x hx hbx => hall x (List.mem_cons_of_mem _ hx) hbx)
    · obtain ⟨sis, hba, hne⟩ := hall ft (List.mem_cons_self _ _) hb
      cases hlast : lastUsable st pt sis with
      | none => exact absurd hlast hne
      | some c =>
        simp only [allocLoop, if_neg hb, hba]
        rw [allocScan_eq]
        simp only [hlast]
        simp only [if_neg (filepathJoin3_ne_empty (locOf st c.ID) (ftString ft)
          (SectorName sid))]
        have hft : ft ∈ PathTypes := hsub ft (List.mem_cons_self _ _)
        have hfa : ft &&& allocate = ft := pathTypes_land_eq hft hb
        apply ih
        · exact fun x hx => hsub x (List.mem_cons_of_mem _ hx)
        · exact fun a ha b hb' hab => hdisj a (List.mem_cons_of_mem _ ha)
            b (List.mem_cons_of_mem _ hb') hab
        · intro x hx hbx
          by_cases hxft : x = ft
          · subst hxft
            rw [land_xor_distrib, hfa, land_self, Nat.xor_self] at hbx
            exact absurd rfl hbx
          · rw [land_xor_cancel (hdisj x (List.mem_cons_of_mem _ hx)
              ft (List.mem_cons_self _ _) hxft)] at hbx
            exact hall x (List.mem_cons_of_mem _ hx) hbx

/-- Inversion of a successful allocate loop: every requested type was
resolved to the last surviving candidate of its index response, and all
other types were left untouched. -/
theorem allocLoop_ok_spec (st : Local) (index : SectorIndex) (sid : SectorID)
    (spt : RegisteredProof) (pt : PathType) :
    ∀ (fts : List SectorFileType) (allocate : Nat) (out ids out' ids' : SectorPaths)
      (rem : Nat),
      (∀ x ∈ fts, x ∈ PathTypes) → fts.Nodup →
      (∀ a ∈ fts, ∀ b ∈ fts, a ≠ b → a &&& b = 0) →
      allocLoop st index sid spt pt fts allocate out ids = .ok (out', ids', rem) →
      (∀ ft ∈ fts, ft &&& allocate ≠ 0 →
        ∃ sis c, index.StorageBestAlloc ft spt pt = .ok sis ∧
          lastUsable st pt sis = some c ∧
          PathByType out' ft = filepathJoin3 (locOf st c.ID) (ftString ft) (SectorName sid) ∧
          PathByType ids' ft = c.ID) ∧
      (∀ g : Nat, (g ∉ fts ∨ g &&& allocate = 0) →
        PathByType out' g = PathByType out g ∧ PathByType ids' g = PathByType ids g) := by
  intro fts
  induction fts with
  | nil =>
    intro allocate out ids out' ids' rem _ _ _ hloop
    simp only [allocLoop, Except.ok.injEq, Prod.mk.injEq] at hloop
    obtain ⟨rfl, rfl, rfl⟩ := hloop
    exact ⟨fun ft hft => absurd hft (List.not_mem_nil ft), fun g _ => ⟨rfl, rfl⟩⟩
  | cons ft rest ih =>
    intro allocate out ids out' ids' rem hsub hnd hdisj hloop
    rw [List.nodup_cons] at hnd
    obtain ⟨hftnotin, hndrest⟩ := hnd
    have hsubr : ∀ x ∈ rest, x ∈ PathTypes :=
      fun x hx => hsub x (List.mem_cons_of_mem _ hx)
    have hdisjr : ∀ a ∈ rest, ∀ b ∈ rest, a ≠ b → a &&& b = 0 :=
      fun a ha b hb' hab => hdisj a (List.mem_cons_of_mem _ ha)
        b (List.mem_cons_of_mem _ hb') hab
    by_cases hb : ft &&& allocate = 0
    · simp only [allocLoop, if_pos hb] at hloop
      obtain ⟨hP, hF⟩ := ih allocate out ids out' ids' rem hsubr hndrest hdisjr hloop
      constructor
      · intro x hx hbx
        rcases List.mem_cons.1 hx with hxft | hxr
        · subst hxft; exact absurd hb hbx
        · exact hP x hxr hbx
      · intro g hg
        rcases hg with hg | hg
        · exact hF g (Or.inl fun hc => hg (List.mem_cons_of_mem _ hc))
        · exact hF g (Or.inr hg)
    · cases hba : index.StorageBestAlloc ft spt pt with
      | error e =>
        simp only [allocLoop, if_neg hb, hba] at hloop
        exact Except.noConfusion hloop
      | ok sis =>
        simp only [allocLoop, if_neg hb, hba] at hloop
        rw [allocScan_eq] at hloop
        cases hlast : lastUsable st pt sis with
        | none =>
          simp only [hlast] at hloop
          simp at hloop
        | some c =>
          simp only [hlast] at hloop
          rw [if_neg (filepathJoin3_ne_empty (locOf st c.ID) (ftString ft)
            (SectorName sid))] at hloop
          have hft : ft ∈ PathTypes := hsub ft (List.mem_cons_self _ _)
          have hfa : ft &&& allocate = ft := pathTypes_land_eq hft hb
          have hgft : ∀ g : Nat, g &&& allocate = 0 → g &&& ft = 0 := by
            intro g hg
            calc g &&& ft = g &&& (allocate &&& ft) := by rw [Nat.land_comm allocate ft, hfa]
            _ = g &&& allocate &&& ft := by rw [Nat.land_assoc]
            _ = 0 := by rw [hg, zero_land]
          obtain ⟨hP, hF⟩ := ih (allocate ^^^ ft)
            (SetPathByType out ft (filepathJoin3 (locOf st c.ID) (ftString ft) (SectorName sid)))
            (SetPathByType ids ft c.ID) out' ids' rem hsubr hndrest hdisjr hloop
          constructor
          · intro x hx hbx
            rcases List.mem_cons.1 hx with hxft | hxr
            · subst hxft
              refine ⟨sis, c, hba, hlast, ?_, ?_⟩
              · rw [(hF x (Or.inl hftnotin)).1, PathByType_SetPathByType_same hft]
              · rw [(hF x (Or.inl hftnotin)).2, PathByType_SetPathByType_same hft]
            · have hxft : x ≠ ft := fun hc => hftnotin (hc ▸ hxr)
              have hbx' : x &&& (allocate ^^^ ft) ≠ 0 := by
                rw [land_xor_cancel (hdisj x (List.mem_cons_of_mem _ hxr)
                  ft (List.mem_cons_self _ _) hxft)]
                exact hbx
              exact hP x hxr hbx'
          · intro g hg
            rcases hg with hg | hg
            · have hgrest : g ∉ rest := fun hc => hg (List.mem_cons_of_mem _ hc)
              have hgft' : g ≠ ft := fun hc => hg (hc ▸ List.mem_cons_self _ _)
              obtain ⟨e1, e2⟩ := hF g (Or.inl hgrest)
              rw [e1, e2, PathByType_SetPathByType_ne hgft', PathByType_SetPathByType_ne hgft']
              exact ⟨rfl, rfl⟩
            · have hgft2 : g &&& ft = 0 := hgft g hg
              have hgne : g ≠ ft := by
                intro hc
                subst hc
                rw [land_self] at hgft2
                rw [hgft2] at hb
                exact hb (zero_land allocate)
              have hg' : g &&& (allocate ^^^ ft) = 0 := by
                rw [land_xor_distrib, hg, hgft2, Nat.xor_self]
              obtain ⟨e1, e2⟩ := hF g (Or.inr hg')
              rw [e1, e2, PathByType_SetPathByType_ne hgne, PathByType_SetPathByType_ne hgne]
              exact ⟨rfl, rfl⟩

/-- If every requested type gets a successful index response but some
requested type has no surviving candidate, the allocate loop fails with
`noSuitableStorage`. -/
theorem allocLoop_noSuitable (st : Local) (index : SectorIndex) (sid : SectorID)
    (spt : RegisteredProof) (pt : PathType) :
    ∀ (fts : List SectorFileType) (allocate : Nat) (out ids : SectorPaths),
      (∀ x ∈ fts, x ∈ PathTypes) →
      (∀ a ∈ fts, ∀ b ∈ fts, a ≠ b → a &&& b = 0) →
      (∀ ft ∈ fts, ft &&& allocate ≠ 0 →
        ∃ sis, index.StorageBestAlloc ft spt pt = .ok sis) →
      (∃ ft ∈ fts, ft &&& allocate ≠ 0 ∧
        ∀ sis, index.StorageBestAlloc ft spt pt = .ok sis → lastUsable st pt sis = none) →
      allocLoop st index sid spt pt fts allocate out ids = .error .noSuitableStorage := by
  intro fts
  induction fts with
  | nil =>
    intro allocate out ids _ _ _ hfail
    obtain ⟨ft, hmem, _⟩ := hfail
    exact absurd hmem (List.not_mem_nil ft)
  | cons ft rest ih =>
    intro allocate out ids hsub hdisj hok hfail
    have hsubr : ∀ x ∈ rest, x ∈ PathTypes :=
      fun x hx => hsub x (List.mem_cons_of_mem _ hx)
    have hdisjr : ∀ a ∈ rest, ∀ b ∈ rest, a ≠ b → a &&& b = 0 :=
      fun a ha b hb' hab => hdisj a (List.mem_cons_of_mem _ ha)
        b (List.mem_cons_of_mem _ hb') hab
    by_cases hb : ft &&& allocate = 0
    · simp only [allocLoop, if_pos hb]
      apply ih allocate out ids hsubr hdisjr
        (fun x hx hbx => hok x (List.mem_cons_of_mem _ hx) hbx)
      obtain ⟨f0, hmem, hbit, hprop⟩ := hfail
      rcases List.mem_cons.1 hmem with heq | hmem'
      · subst heq; exact absurd hb hbit
      · exact ⟨f0, hmem', hbit, hprop⟩
    · have hft : ft ∈ PathTypes := hsub ft (List.mem_cons_self _ _)
      have hfa : ft &&& allocate = ft := pathTypes_land_eq hft hb
      have hself : ft &&& (allocate ^^^ ft) = 0 := by
        rw [land_xor_distrib, hfa, land_self, Nat.xor_self]
      obtain ⟨sis, hba⟩ := hok ft (List.mem_cons_self _ _) hb
      cases hlast : lastUsable st pt sis with
      | none =>
        simp only [allocLoop, if_neg hb, hba]
        rw [allocScan_eq]
        simp [hlast]
      | some c =>
        simp only [allocLoop, if_neg hb, hba]
        rw [allocScan_eq]
        simp only [hlast]
        rw [if_neg (filepathJoin3_ne_empty (locOf st c.ID) (ftString ft) (SectorName sid))]
        apply ih
        · exact hsubr
        · exact hdisjr
        · intro x hx hbx
          by_cases hxft : x = ft
          · subst hxft; exact absurd hself hbx
          · rw [land_xor_cancel (hdisj x (List.mem_cons_of_mem _ hx)
              ft (List.mem_cons_self _ _) hxft)] at hbx
            exact hok x (List.mem_cons_of_mem _ hx) hbx
        · obtain ⟨f0, hmem, hbit, hprop⟩ := hfail
          rcases List.mem_cons.1 hmem with hfe | hmem'
          · subst hfe
            have hn := hprop sis hba
            rw [hlast] at hn
            exact Option.noConfusion hn
          · by_cases hxft : f0 = ft
            · subst hxft
              have hn := hprop sis hba
              rw [hlast] at hn
              exact Option.noConfusion hn
            · refine ⟨f0, hmem', ?_, hprop⟩
              rw [land_xor_cancel (hdisj f0 (List.mem_cons_of_mem _ hmem')
                ft (List.mem_cons_self _ _) hxft)]
              exact hbit

/-- If some requested type's `StorageBestAlloc` call fails, the allocate loop
fails (with some error). -/
theorem allocLoop_bestAllocError (st : Local) (index : SectorIndex) (sid : SectorID)
    (spt : RegisteredProof) (pt : PathType) :
    ∀ (fts : List SectorFileType) (allocate : Nat) (out ids : SectorPaths),
      (∀ x ∈ fts, x ∈ PathTypes) →
      (∀ a ∈ fts, ∀ b ∈ fts, a ≠ b → a &&& b = 0) →
      (∃ ft ∈ fts, ft &&& allocate ≠ 0 ∧ ∃ e, index.StorageBestAlloc ft spt pt = .error e) →
      ∃ e', allocLoop st index sid spt pt fts allocate out ids = .error e' := by
  intro fts
  induction fts with
  | nil =>
    intro allocate out ids _ _ hfail
    obtain ⟨ft, hmem, _⟩ := hfail
    exact absurd hmem (List.not_mem_nil ft)
  | cons ft rest ih =>
    intro allocate out ids hsub hdisj hfail
    have hsubr : ∀ x ∈ rest, x ∈ PathTypes :=
      fun x hx => hsub x (List.mem_cons_of_mem _ hx)
    have hdisjr : ∀ a ∈ rest, ∀ b ∈ rest, a ≠ b → a &&& b = 0 :=
      fun a ha b hb' hab => hdisj a (List.mem_cons_of_mem _ ha)
        b (List.mem_cons_of_mem _ hb') hab
    by_cases hb : ft &&& allocate = 0
    · simp only [allocLoop, if_pos hb]
      apply ih allocate out ids hsubr hdisjr
      obtain ⟨f0, hmem, hbit, hprop⟩ := hfail
      rcases List.mem_cons.1 hmem with heq | hmem'
      · subst heq; exact absurd hb hbit
      · exact ⟨f0, hmem', hbit, hprop⟩
    · cases hba : index.StorageBestAlloc ft spt pt with
      | error e =>
        refine ⟨.storageBestAllocFailed e, ?_⟩
        simp [allocLoop, if_neg hb, hba]
      | ok sis =>
        have hft : ft ∈ PathTypes := hsub ft (List.mem_cons_self _ _)
        have hfa : ft &&& allocate = ft := pathTypes_land_eq hft hb
        have hself : ft &&& (allocate ^^^ ft) = 0 := by
          rw [land_xor_distrib, hfa, land_self, Nat.xor_self]
        cases hlast : lastUsable st pt sis with
        | none =>
          refine ⟨.noSuitableStorage, ?_⟩
          simp only [allocLoop, if_neg hb, hba]
          rw [allocScan_eq]
          simp [hlast]
        | some c =>
          simp only [allocLoop, if_neg hb, hba]
          rw [allocScan_eq]
          simp only [hlast]
          rw [if_neg (filepathJoin3_ne_empty (locOf st c.ID) (ftString ft) (SectorName sid))]
          apply ih _ _ _ hsubr hdisjr
          obtain ⟨f0, hmem, hbit, e, hprop⟩ := hfail
          rcases List.mem_cons.1 hmem with hfe | hmem'
          · subst hfe
            rw [hba] at hprop
            exact Except.noConfusion hprop
          · by_cases hxft : f0 = ft
            · subst hxft
              rw [hba] at hprop
              exact Except.noConfusion hprop
            · refine ⟨f0, hmem', ?_, e, hprop⟩
              rw [land_xor_cancel (hdisj f0 (List.mem_cons_of_mem _ hmem')
                ft (List.mem_cons_self _ _) hxft)]
              exact hbit

/-! ### The existing loop -/

theorem pathTypes_disjoint {a b : Nat} (ha : a ∈ PathTypes) (hb : b ∈ PathTypes)
    (hab : a ≠ b) : a &&& b = 0 := by
  rcases mem_pathTypes_iff.1 ha with rfl | rfl | rfl <;>
    rcases mem_pathTypes_iff.1 hb with rfl | rfl | rfl <;>
    first
    | rfl
    | exact absurd rfl hab

/-- Inversion of the existing loop: each requested type is resolved to the
first usable holder of its index response (or left untouched when the index
errors or no holder is usable), and unrequested types are left untouched. -/
theorem existingLoop_spec (st : Local) (index : SectorIndex) (sid : SectorID) :
    ∀ (fts : List SectorFileType) (existing : Nat) (out ids out' ids' : SectorPaths)
      (rem : Nat),
      (∀ x ∈ fts, x ∈ PathTypes) → fts.Nodup →
      existingLoop st index sid fts existing out ids = (out', ids', rem) →
      (∀ ft ∈ fts, ft &&& existing ≠ 0 →
        (∀ si, index.StorageFindSector sid ft false = .ok si →
          (∀ c, si.find? (existUsable st) = some c →
            PathByType out' ft = filepathJoin3 (locOf st c.ID) (ftString ft) (SectorName sid) ∧
            PathByType ids' ft = c.ID) ∧
          (si.find? (existUsable st) = none →
            PathByType out' ft = PathByType out ft ∧ PathByType ids' ft = PathByType ids ft)) ∧
        (∀ e, index.StorageFindSector sid ft false = .error e →
          PathByType out' ft = PathByType out ft ∧ PathByType ids' ft = PathByType ids ft)) ∧
      (∀ g : Nat, (g ∉ fts ∨ g &&& existing = 0) →
        PathByType out' g = PathByType out g ∧ PathByType ids' g = PathByType ids g) := by
  intro fts
  induction fts with
  | nil =>
    intro existing out ids out' ids' rem _ _ hloop
    simp only [existingLoop, Prod.mk.injEq] at hloop
    obtain ⟨rfl, rfl, rfl⟩ := hloop
    exact ⟨fun ft hft => absurd hft (List.not_mem_nil ft), fun g _ => ⟨rfl, rfl⟩⟩
  | cons ft rest ih =>
    intro existing out ids out' ids' rem hsub hnd hloop
    rw [List.nodup_cons] at hnd
    obtain ⟨hftnotin, hndrest⟩ := hnd
    have hsubr : ∀ x ∈ rest, x ∈ PathTypes :=
      fun x hx => hsub x (List.mem_cons_of_mem _ hx)
    have hft : ft ∈ PathTypes := hsub ft (List.mem_cons_self _ _)
    by_cases hb : ft &&& existing = 0
    · simp only [existingLoop, if_pos hb] at hloop
      obtain ⟨hP, hF⟩ := ih existing out ids out' ids' rem hsubr hndrest hloop
      constructor
      · intro x hx hbx
        rcases List.mem_cons.1 hx with hxft | hxr
        · subst hxft; exact absurd hb hbx
        · exact hP x hxr hbx
      · intro g hg
        rcases hg with hg | hg
        · exact hF g (Or.inl fun hc => hg (List.mem_cons_of_mem _ hc))
        · exact hF g (Or.inr hg)
    · have hfa : ft &&& existing = ft := pathTypes_land_eq hft hb
      have hgft : ∀ g : Nat, g &&& existing = 0 → g &&& ft = 0 := by
        intro g hg
        calc g &&& ft = g &&& (existing &&& ft) := by rw [Nat.land_comm existing ft, hfa]
        _ = g &&& existing &&& ft := by rw [Nat.land_assoc]
        _ = 0 := by rw [hg, zero_land]
      cases hfind : index.StorageFindSector sid ft false with
      | error e =>
        simp only [existingLoop, if_neg hb, hfind] at hloop
        obtain ⟨hP, hF⟩ := ih existing out ids out' ids' rem hsubr hndrest hloop
        constructor
        · intro x hx hbx
          rcases List.mem_cons.1 hx with hxft | hxr
          · subst hxft
            constructor
            · intro si hsi
              rw [hfind] at hsi
              exact Except.noConfusion hsi
            · intro e' _
              exact hF x (Or.inl hftnotin)
          · exact hP x hxr hbx
        · intro g hg
          rcases hg with hg | hg
          · exact hF g (Or.inl fun hc => hg (List.mem_cons_of_mem _ hc))
          · exact hF g (Or.inr hg)
      | ok si =>
        simp only [existingLoop, if_neg hb, hfind] at hloop
        rw [existingScan_eq] at hloop
        cases hfR : si.find? (existUsable st) with
        | none =>
          simp only [hfR] at hloop
          obtain ⟨hP, hF⟩ := ih existing out ids out' ids' rem hsubr hndrest hloop
          constructor
          · intro x hx hbx
            rcases List.mem_cons.1 hx with hxft | hxr
            · subst hxft
              constructor
              · intro si' hsi'
                rw [hfind] at hsi'
                injection hsi' with hsi'
                subst hsi'
                constructor
                · intro c hc
                  rw [hfR] at hc
                  exact Option.noConfusion hc
                · intro _
                  exact hF x (Or.inl hftnotin)
              · intro e' he'
                rw [hfind] at he'
                exact Except.noConfusion he'
            · exact hP x hxr hbx
          · intro g hg
            rcases hg with hg | hg
            · exact hF g (Or.inl fun hc => hg (List.mem_cons_of_mem _ hc))
            · exact hF g (Or.inr hg)
        | some c =>
          simp only [hfR] at hloop
          obtain ⟨hP, hF⟩ := ih (existing ^^^ ft)
            (SetPathByType out ft (filepathJoin3 (locOf st c.ID) (ftString ft) (SectorName sid)))
            (SetPathByType ids ft c.ID) out' ids' rem hsubr hndrest hloop
          constructor
          · intro x hx hbx
            rcases List.mem_cons.1 hx with hxft | hxr
            · subst hxft
              constructor
              · intro si' hsi'
                rw [hfind] at hsi'
                injection hsi' with hsi'
                subst hsi'
                constructor
                · intro c' hc'
                  rw [hfR] at hc'
                  injection hc' with hc'
                  subst hc'
                  obtain ⟨e1, e2⟩ := hF x (Or.inl hftnotin)
                  rw [e1, e2, PathByType_SetPathByType_same hft,
                    PathByType_SetPathByType_same hft]
                  exact ⟨rfl, rfl⟩
                · intro hcn
                  rw [hfR] at hcn
                  exact Option.noConfusion hcn
              · intro e' he'
                rw [hfind] at he'
                exact Except.noConfusion he'
            · have hxne : x ≠ ft := fun hc => hftnotin (hc ▸ hxr)
              have hxd : x &&& ft = 0 :=
                pathTypes_disjoint (hsubr x hxr) hft hxne
              have hbx' : x &&& (existing ^^^ ft) ≠ 0 := by
                rw [land_xor_cancel hxd]
                exact hbx
              obtain ⟨hPo, hPe⟩ := hP x hxr hbx'
              constructor
              · intro si' hsi'
                obtain ⟨hPs, hPn⟩ := hPo si' hsi'
                constructor
                · exact hPs
                · intro hn
                  obtain ⟨e1, e2⟩ := hPn hn
                  rw [e1, e2, PathByType_SetPathByType_ne hxne,
                    PathByType_SetPathByType_ne hxne]
                  exact ⟨rfl, rfl⟩
              · intro e' he'
                obtain ⟨e1, e2⟩ := hPe e' he'
                rw [e1, e2, PathByType_SetPathByType_ne hxne,
                  PathByType_SetPathByType_ne hxne]
                exact ⟨rfl, rfl⟩
          · intro g hg
            rcases hg with hg | hg
            · have hgrest : g ∉ rest := fun hc => hg (List.mem_cons_of_mem _ hc)
              have hgne : g ≠ ft := fun hc => hg (hc ▸ List.mem_cons_self _ _)
              obtain ⟨e1, e2⟩ := hF g (Or.inl hgrest)
              rw [e1, e2, PathByType_SetPathByType_ne hgne, PathByType_SetPathByType_ne hgne]
              exact ⟨rfl, rfl⟩
            · have hgft2 : g &&& ft = 0 := hgft g hg
              have hgne : g ≠ ft := by
                intro hc
                subst hc
                rw [land_self] at hgft2
                rw [hgft2] at hb
                exact hb (zero_land existing)
              have hg' : g &&& (existing ^^^ ft) = 0 := by
                rw [land_xor_distrib, hg, hgft2, Nat.xor_self]
              obtain ⟨e1, e2⟩ := hF g (Or.inr hg')
              rw [e1, e2, PathByType_SetPathByType_ne hgne, PathByType_SetPathByType_ne hgne]
              exact ⟨rfl, rfl⟩

/-- When processing a requested type finds nothing — the index's find call
errors, or it succeeds but no returned holder is usable — the existing loop
computes the same paths as if that type had not been requested at all. -/
theorem existingLoop_noop_drop (st : Local) (index : SectorIndex) (sid : SectorID)
    (ft : Nat) (hft : ft ∈ PathTypes)
    (herr : (∃ e, index.StorageFindSector sid ft false = .error e) ∨
      (∃ si, index.StorageFindSector sid ft false = .ok si ∧
        si.find? (existUsable st) = none)) :
    ∀ (fts : List SectorFileType) (existing : Nat) (out ids : SectorPaths),
      (∀ x ∈ fts, x ∈ PathTypes) →
      ft &&& existing ≠ 0 →
      ((existingLoop st index sid fts existing out ids).1,
       (existingLoop st index sid fts existing out ids).2.1) =
      ((existingLoop st index sid fts (existing ^^^ ft) out ids).1,
       (existingLoop st index sid fts (existing ^^^ ft) out ids).2.1) := by
  intro fts
  induction fts with
  | nil => intro existing out ids _ _; rfl
  | cons x rest ih =>
    intro existing out ids hsub hbit
    have hsubr : ∀ y ∈ rest, y ∈ PathTypes :=
      fun y hy => hsub y (List.mem_cons_of_mem _ hy)
    have hfa : ft &&& existing = ft := pathTypes_land_eq hft hbit
    have hself : ft &&& (existing ^^^ ft) = 0 := by
      rw [land_xor_distrib, hfa, land_self, Nat.xor_self]
    by_cases hxft : x = ft
    · subst hxft
      rcases herr with ⟨e, he⟩ | ⟨si, hsi, hnone⟩
      · simp only [existingLoop, if_neg hbit, he, if_pos hself]
        exact ih existing out ids hsubr hbit
      · simp only [existingLoop, if_neg hbit, hsi, if_pos hself]
        rw [existingScan_eq]
        simp only [hnone]
        exact ih existing out ids hsubr hbit
    · have hx : x ∈ PathTypes := hsub x (List.mem_cons_self _ _)
      have hxd : x &&& ft = 0 := pathTypes_disjoint hx hft hxft
      have hcond : x &&& (existing ^^^ ft) = x &&& existing := land_xor_cancel hxd existing
      by_cases hxb : x &&& existing = 0
      · simp only [existingLoop]
        rw [hcond]
        simp only [if_pos hxb]
        exact ih existing out ids hsubr hbit
      · simp only [existingLoop]
        rw [hcond]
        simp only [if_neg hxb]
        cases hfx : index.StorageFindSector sid x false with
        | error e' =>
          simp only [hfx]
          exact ih existing out ids hsubr hbit
        | ok si =>
          simp only [hfx]
          rw [existingScan_eq, existingScan_eq]
          cases hfR : si.find? (existUsable st) with
          | none =>
            simp only [hfR]
            exact ih existing out ids hsubr hbit
          | some c =>
            simp only [hfR]
            have hmask : existing ^^^ ft ^^^ x = existing ^^^ x ^^^ ft := by
              rw [Nat.xor_assoc, Nat.xor_comm ft x, ← Nat.xor_assoc]
            rw [hmask]
            have hbit' : ft &&& (existing ^^^ x) ≠ 0 := by
              rw [land_xor_cancel (by rw [Nat.land_comm]; exact hxd)]
              exact hbit
            exact ih (existing ^^^ x) _ _ hsubr hbit'

/-! ### lastUsable as filter + getLast? -/

/-- `lastUsable` is the last element of the filtered candidate list. -/
theorem lastUsable_eq_filter_getLast (st : Local) (pt : PathType) :
    ∀ l : List StorageInfo,
      lastUsable st pt l = (l.filter (allocUsable st pt)).getLast? := by
  intro l
  induction l with
  | nil => rfl
  | cons si rest ih =>
    cases hu : allocUsable st pt si with
    | false =>
      rw [lastUsable_cons_of_neg hu, List.filter_cons_of_neg (by rw [hu]; exact Bool.false_ne_true)]
      exact ih
    | true =>
      rw [lastUsable_cons_of_pos hu, List.filter_cons_of_pos hu, ih]
      cases hl : rest.filter (allocUsable st pt) with
      | nil => rfl
      | cons b l2 =>
        rw [List.getLast?_cons_cons]
        cases hgl : (b :: l2).getLast? with
        | none => exact absurd (List.getLast?_eq_none_iff.1 hgl) (List.cons_ne_nil b l2)
        | some c => rfl

/-- A surviving candidate belongs to the index's response. -/
theorem lastUsable_mem (st : Local) (pt : PathType) :
    ∀ (l : List StorageInfo) (c : StorageInfo), lastUsable st pt l = some c → c ∈ l := by
  intro l
  induction l with
  | nil => intro c h; exact Option.noConfusion h
  | cons si rest ih =>
    intro c h
    rw [lastUsable] at h
    cases hrest : lastUsable st pt rest with
    | some c' =>
      rw [hrest] at h
      injection h with h
      subst h
      exact List.mem_cons_of_mem _ (ih c' hrest)
    | none =>
      rw [hrest] at h
      by_cases hu : allocUsable st pt si = true
      · rw [if_pos hu] at h
        injection h with h
        subst h
        exact List.mem_cons_self _ _
      · rw [if_neg hu] at h
        exact Option.noConfusion h

/-! ### Concrete fixtures used by the witnesses -/

instance {ε α : Type} [DecidableEq ε] [DecidableEq α] : DecidableEq (Except ε α) :=
  fun a b =>
    match a, b with
    | .error e, .error e' =>
      if h : e = e' then .isTrue (by rw [h]) else .isFalse (fun hc => h (by injection hc))
    | .error _, .ok _ => .isFalse (fun h => Except.noConfusion h)
    | .ok _, .error _ => .isFalse (fun h => Except.noConfusion h)
    | .ok a, .ok a' =>
      if h : a = a' then .isTrue (by rw [h]) else .isFalse (fun hc => h (by injection hc))

/-- A registry with two registered paths. -/
def stW : Local := ⟨[("s1", ⟨"/p1"⟩), ("s2", ⟨"/p2"⟩)]⟩

/-- `s1` is a sealing-only path, `s2` a storage-capable path. -/
def infoS1 : StorageInfo :=
  { ID := "s1", URLs := [], Weight := 10, CanSeal := true, CanStore := false }

/-- The storage-capable path's info. -/
def infoS2 : StorageInfo :=
  { ID := "s2", URLs := [], Weight := 10, CanSeal := false, CanStore := true }

/-- A well-behaved index: `s1` holds every sector (primary), `s2` a
non-primary copy of unsealed files; best-alloc returns `s2` then `s1`. -/
def idxW : SectorIndex where
  StorageFindSector := fun _ ft _ =>
    .ok (if ft = FTUnsealed then [⟨"s1", true⟩, ⟨"s2", false⟩] else [⟨"s1", true⟩])
  StorageBestAlloc := fun _ _ _ => .ok [infoS2, infoS1]
  StorageInfoOf := fun i => .ok (if i = "s1" then infoS1 else infoS2)
  StorageDropSector := fun _ _ _ => .ok ()
  StorageDeclareSector := fun _ _ _ _ => .ok ()

/-- A concrete sector. -/
def sidW : SectorID := ⟨1000, 1⟩

/-- A filesystem on which deletes and moves succeed. -/
def fsW : FsEnv := ⟨fun _ => true, fun _ _ => true⟩

/-! ### Claim theorems -/

/-- C2: `AcquireSector` fails with the conflicting-file-type-request error,
independently of the index and registry, exactly when the `existing` and
`allocate` bit sets overlap; for disjoint sets the disjointness check never
produces that error. -/
theorem acquireSector_conflict_spec (st : Local) (index : SectorIndex) (sid : SectorID)
    (spt : RegisteredProof) (existing allocate : SectorFileType) (pt : PathType)
    (op : AcquireMode) :
    (existing &&& allocate ≠ 0 →
      AcquireSector st index sid spt existing allocate pt op =
        .error .conflictingFileTypeRequest) ∧
    (existing &&& allocate = 0 →
      AcquireSector st index sid spt existing allocate pt op ≠
        .error .conflictingFileTypeRequest) := by
  constructor
  · intro h
    have hcond : existing ||| allocate ≠ existing ^^^ allocate := by
      intro hc
      exact h ((lor_eq_xor_iff existing allocate).1 hc)
    simp only [AcquireSector, if_pos hcond]
  · intro h
    have hcond : ¬(existing ||| allocate ≠ existing ^^^ allocate) := by
      intro hx
      exact hx ((lor_eq_xor_iff existing allocate).2 h)
    rcases hE : existingLoop st index sid PathTypes existing emptySectorPaths emptySectorPaths
      with ⟨out, ids, rem⟩
    simp only [AcquireSector, if_neg hcond, hE]
    cases hA : allocLoop st index sid spt pt PathTypes allocate out ids with
    | error e =>
      simp only [hA]
      intro heq
      injection heq with hinj
      rw [hinj] at hA
      exact allocLoop_ne_conflict st index sid spt pt PathTypes allocate out ids hA
    | ok r =>
      rcases r with ⟨out', ids', rem'⟩
      simp [hA]

/-- Witness for C2: a concrete overlapping request fails with the conflict
error, a concrete disjoint request does not. -/
theorem acquireSector_conflict_witness :
    ((1 : Nat) &&& 1 ≠ 0 ∧
      AcquireSector stW idxW sidW 0 1 1 PathSealing AcquireMode.move =
        .error .conflictingFileTypeRequest) ∧
    ((1 : Nat) &&& 2 = 0 ∧
      AcquireSector stW idxW sidW 0 1 2 PathSealing AcquireMode.move ≠
        .error .conflictingFileTypeRequest) :=
  ⟨⟨by decide,
    (acquireSector_conflict_spec stW idxW sidW 0 1 1 PathSealing AcquireMode.move).1 (by decide)⟩,
   ⟨by decide,
    (acquireSector_conflict_spec stW idxW sidW 0 1 2 PathSealing AcquireMode.move).2 (by decide)⟩⟩

/-- C1: for every file type in the `allocate` set (given successful
`StorageBestAlloc` responses), `AcquireSector` filters the candidates down to
those registered with a non-empty mount root and the capability required by
the path type; if every requested type keeps at least one candidate the call
succeeds and resolves each type to the LAST surviving candidate in the
index's order — path `<root>/<typename>/<sectorid>` and that candidate's
StorageID — and if some requested type keeps none, the whole call fails with
`noSuitableStorage`. -/
theorem acquireSector_allocate_spec (st : Local) (index : SectorIndex) (sid : SectorID)
    (spt : RegisteredProof) (existing allocate : SectorFileType) (pt : PathType)
    (op : AcquireMode)
    (hdisj : existing &&& allocate = 0)
    (hok : ∀ ft ∈ PathTypes, ft &&& allocate ≠ 0 →
      ∃ sis, index.StorageBestAlloc ft spt pt = .ok sis) :
    ((∀ ft ∈ PathTypes, ft &&& allocate ≠ 0 → ∀ sis,
        index.StorageBestAlloc ft spt pt = .ok sis →
        sis.filter (allocUsable st pt) ≠ []) →
      ∃ out ids, AcquireSector st index sid spt existing allocate pt op = .ok (out, ids) ∧
        ∀ ft ∈ PathTypes, ft &&& allocate ≠ 0 → ∀ sis,
          index.StorageBestAlloc ft spt pt = .ok sis →
          ∀ c, (sis.filter (allocUsable st pt)).getLast? = some c →
            PathByType out ft =
              filepathJoin3 (locOf st c.ID) (ftString ft) (SectorName sid) ∧
            PathByType ids ft = c.ID) ∧
    ((∃ ft ∈ PathTypes, ft &&& allocate ≠ 0 ∧ ∀ sis,
        index.StorageBestAlloc ft spt pt = .ok sis →
        sis.filter (allocUsable st pt) = []) →
      AcquireSector st index sid spt existing allocate pt op =
        .error .noSuitableStorage) := by
  have hcond : ¬(existing ||| allocate ≠ existing ^^^ allocate) := by
    intro hx
    exact hx ((lor_eq_xor_iff existing allocate).2 hdisj)
  rcases hE : existingLoop st index sid PathTypes existing emptySectorPaths emptySectorPaths
    with ⟨out0, ids0, rem0⟩
  have hsubPT : ∀ x ∈ PathTypes, x ∈ PathTypes := fun x hx => hx
  have hndPT : PathTypes.Nodup := by decide
  have hdisjPT : ∀ a ∈ PathTypes, ∀ b ∈ PathTypes, a ≠ b → a &&& b = 0 := by decide
  constructor
  · intro hsurv
    have hall : ∀ ft ∈ PathTypes, ft &&& allocate ≠ 0 →
        ∃ sis, index.StorageBestAlloc ft spt pt = .ok sis ∧ lastUsable st pt sis ≠ none := by
      intro ft hft hbit
      obtain ⟨sis, hsis⟩ := hok ft hft hbit
      refine ⟨sis, hsis, ?_⟩
      rw [lastUsable_eq_filter_getLast]
      intro hcontra
      exact hsurv ft hft hbit sis hsis (List.getLast?_eq_none_iff.1 hcontra)
    obtain ⟨out', ids', rem', hA⟩ :=
      allocLoop_total_ok st index sid spt pt PathTypes allocate out0 ids0 hsubPT hdisjPT hall
    obtain ⟨hP, _⟩ := allocLoop_ok_spec st index sid spt pt PathTypes allocate out0 ids0
      out' ids' rem' hsubPT hndPT hdisjPT hA
    refine ⟨out', ids', ?_, ?_⟩
    · simp only [AcquireSector, if_neg hcond, hE, hA]
    · intro ft hft hbit sis hsis c hc
      obtain ⟨sis2, c2, hsis2, hlast2, hv1, hv2⟩ := hP ft hft hbit
      rw [hsis] at hsis2
      injection hsis2 with hs
      subst hs
      rw [lastUsable_eq_filter_getLast] at hlast2
      rw [hc] at hlast2
      injection hlast2 with hc2
      subst hc2
      exact ⟨hv1, hv2⟩
  · intro hfail
    have hA : allocLoop st index sid spt pt PathTypes allocate out0 ids0 =
        .error .noSuitableStorage := by
      apply allocLoop_noSuitable st index sid spt pt PathTypes allocate out0 ids0
        hsubPT hdisjPT hok
      obtain ⟨ft, hmem, hbit, hempty⟩ := hfail
      refine ⟨ft, hmem, hbit, ?_⟩
      intro sis hsis
      rw [lastUsable_eq_filter_getLast, hempty sis hsis]
      rfl
    simp only [AcquireSector, if_neg hcond, hE, hA]

/-- Witness for C1: allocating a sealed file for sealing purposes on the
concrete fixture succeeds and resolves to the last surviving candidate
(`s1`, the sealing-capable path). -/
theorem acquireSector_allocate_witness :
    ∃ out ids,
      AcquireSector stW idxW sidW 0 0 2 PathSealing AcquireMode.move = .ok (out, ids) ∧
      ∀ ft ∈ PathTypes, ft &&& 2 ≠ 0 → ∀ sis,
        idxW.StorageBestAlloc ft 0 PathSealing = .ok sis →
        ∀ c, (sis.filter (allocUsable stW PathSealing)).getLast? = some c →
          PathByType out ft =
            filepathJoin3 (locOf stW c.ID) (ftString ft) (SectorName sidW) ∧
          PathByType ids ft = c.ID :=
  (acquireSector_allocate_spec stW idxW sidW 0 0 2 PathSealing AcquireMode.move (by decide)
      (fun _ _ _ => ⟨[infoS2, infoS1], rfl⟩)).1
    (by
      intro ft hft hbit sis hsis
      rcases mem_pathTypes_iff.1 hft with rfl | rfl | rfl
      · exact absurd (by decide : (1 : Nat) &&& 2 = 0) hbit
      · have hv : idxW.StorageBestAlloc 2 0 PathSealing = .ok [infoS2, infoS1] := rfl
        rw [hv] at hsis
        injection hsis with h
        subst h
        decide
      · exact absurd (by decide : (4 : Nat) &&& 2 = 0) hbit)

/-- C7: for a file type in the `existing` set whose index lookup succeeds,
`AcquireSector` records the path and StorageID of the FIRST candidate that is
registered with a non-empty mount root (scanning in index order); when no
candidate is usable the type is silently omitted (its result slot stays
empty) and the call behaves exactly as if the type had not been requested. -/
theorem acquireSector_existing_spec (st : Local) (index : SectorIndex) (sid : SectorID)
    (spt : RegisteredProof) (existing allocate : SectorFileType) (pt : PathType)
    (op : AcquireMode) (ft : Nat)
    (hft : ft ∈ PathTypes) (hbit : ft &&& existing ≠ 0)
    (hdisj : existing &&& allocate = 0)
    (si : List SectorStorageInfo)
    (hfind : index.StorageFindSector sid ft false = .ok si) :
    (∀ c, si.find? (existUsable st) = some c →
      ∀ out ids, AcquireSector st index sid spt existing allocate pt op = .ok (out, ids) →
        PathByType out ft = filepathJoin3 (locOf st c.ID) (ftString ft) (SectorName sid) ∧
        PathByType ids ft = c.ID) ∧
    (si.find? (existUsable st) = none →
      (∀ out ids, AcquireSector st index sid spt existing allocate pt op = .ok (out, ids) →
        PathByType out ft = "") ∧
      AcquireSector st index sid spt existing allocate pt op =
        AcquireSector st index sid spt (existing ^^^ ft) allocate pt op) := by
  have hfa : ft &&& existing = ft := pathTypes_land_eq hft hbit
  have hfta : ft &&& allocate = 0 := by
    calc ft &&& allocate = ft &&& existing &&& allocate := by rw [hfa]
    _ = ft &&& (existing &&& allocate) := by rw [Nat.land_assoc]
    _ = 0 := by rw [hdisj, land_zero]
  have hcond : ¬(existing ||| allocate ≠ existing ^^^ allocate) := fun hx =>
    hx ((lor_eq_xor_iff existing allocate).2 hdisj)
  have hsubPT : ∀ x ∈ PathTypes, x ∈ PathTypes := fun x hx => hx
  have hndPT : PathTypes.Nodup := by decide
  have hdisjPT : ∀ a ∈ PathTypes, ∀ b ∈ PathTypes, a ≠ b → a &&& b = 0 := by decide
  rcases hE : existingLoop st index sid PathTypes existing emptySectorPaths emptySectorPaths
    with ⟨out0, ids0, rem0⟩
  obtain ⟨hEP, _⟩ := existingLoop_spec st index sid PathTypes existing
    emptySectorPaths emptySectorPaths out0 ids0 rem0 hsubPT hndPT hE
  obtain ⟨hPo, _⟩ := hEP ft hft hbit
  obtain ⟨hPs, hPn⟩ := hPo si hfind
  constructor
  · intro c hc out ids hAcq
    simp only [AcquireSector, if_neg hcond, hE] at hAcq
    cases hA : allocLoop st index sid spt pt PathTypes allocate out0 ids0 with
    | error e =>
      rw [hA] at hAcq
      exact Except.noConfusion hAcq
    | ok r =>
      rcases r with ⟨out', ids', rem'⟩
      rw [hA] at hAcq
      injection hAcq with hAcq
      injection hAcq with h1 h2
      subst h1
      subst h2
      obtain ⟨hv1, hv2⟩ := hPs c hc
      obtain ⟨_, hFrame⟩ := allocLoop_ok_spec st index sid spt pt PathTypes allocate
        out0 ids0 out' ids' rem' hsubPT hndPT hdisjPT hA
      obtain ⟨f1, f2⟩ := hFrame ft (Or.inr hfta)
      rw [f1, f2, hv1, hv2]
      exact ⟨rfl, rfl⟩
  · intro hnone
    constructor
    · intro out ids hAcq
      simp only [AcquireSector, if_neg hcond, hE] at hAcq
      cases hA : allocLoop st index sid spt pt PathTypes allocate out0 ids0 with
      | error e =>
        rw [hA] at hAcq
        exact Except.noConfusion hAcq
      | ok r =>
        rcases r with ⟨out', ids', rem'⟩
        rw [hA] at hAcq
        injection hAcq with hAcq
        injection hAcq with h1 h2
        subst h1
        subst h2
        obtain ⟨hv1, _⟩ := hPn hnone
        obtain ⟨_, hFrame⟩ := allocLoop_ok_spec st index sid spt pt PathTypes allocate
          out0 ids0 out' ids' rem' hsubPT hndPT hdisjPT hA
        obtain ⟨f1, _⟩ := hFrame ft (Or.inr hfta)
        rw [f1, hv1, PathByType_empty]
    · have hdisj2 : (existing ^^^ ft) &&& allocate = 0 := by
        rw [xor_land_distrib, hdisj, hfta, Nat.xor_self]
      have hcond2 : ¬((existing ^^^ ft) ||| allocate ≠ (existing ^^^ ft) ^^^ allocate) :=
        fun hx => hx ((lor_eq_xor_iff _ allocate).2 hdisj2)
      have hpair := existingLoop_noop_drop st index sid ft hft
        (Or.inr ⟨si, hfind, hnone⟩) PathTypes existing
        emptySectorPaths emptySectorPaths hsubPT hbit
      rcases hE2 : existingLoop st index sid PathTypes (existing ^^^ ft)
        emptySectorPaths emptySectorPaths with ⟨out1, ids1, rem1⟩
      rw [hE, hE2] at hpair
      injection hpair with p1 p2
      subst p1
      subst p2
      simp only [AcquireSector, if_neg hcond, if_neg hcond2, hE, hE2]

/-- Witness for C7: locating an existing unsealed file on the concrete
fixture takes the first usable holder (`s1`). -/
theorem acquireSector_existing_witness :
    PathByType (⟨"/p1/unsealed/s-t01000-1", "", ""⟩ : SectorPaths) 1 =
      filepathJoin3 (locOf stW "s1") (ftString 1) (SectorName sidW) ∧
    PathByType (⟨"s1", "", ""⟩ : SectorPaths) 1 = "s1" :=
  (acquireSector_existing_spec stW idxW sidW 0 1 0 PathSealing AcquireMode.move 1
      (by decide) (by decide) (by decide)
      [⟨"s1", true⟩, ⟨"s2", false⟩] rfl).1
    ⟨"s1", true⟩ (by decide)
    ⟨"/p1/unsealed/s-t01000-1", "", ""⟩ ⟨"s1", "", ""⟩ (by decide)

/-- C10: an index error from `StorageFindSector` for a requested existing
type is non-fatal — the call behaves exactly as if the type had not been
requested, and on success that type's slot is empty — whereas an index error
from `StorageBestAlloc` for a requested allocate type fails the whole call. -/
theorem acquireSector_find_error_spec (st : Local) (index : SectorIndex) (sid : SectorID)
    (spt : RegisteredProof) (existing allocate : SectorFileType) (pt : PathType)
    (op : AcquireMode) (ft : Nat) (e : String)
    (hft : ft ∈ PathTypes) (hbit : ft &&& existing ≠ 0)
    (hdisj : existing &&& allocate = 0)
    (herr : index.StorageFindSector sid ft false = .error e) :
    (AcquireSector st index sid spt existing allocate pt op =
      AcquireSector st index sid spt (existing ^^^ ft) allocate pt op) ∧
    (∀ out ids, AcquireSector st index sid spt existing allocate pt op = .ok (out, ids) →
      PathByType out ft = "") ∧
    (∀ ft' ∈ PathTypes, ft' &&& allocate ≠ 0 →
      (∃ e', index.StorageBestAlloc ft' spt pt = .error e') →
      ∃ e'', AcquireSector st index sid spt existing allocate pt op = .error e'') := by
  have hfa : ft &&& existing = ft := pathTypes_land_eq hft hbit
  have hfta : ft &&& allocate = 0 := by
    calc ft &&& allocate = ft &&& existing &&& allocate := by rw [hfa]
    _ = ft &&& (existing &&& allocate) := by rw [Nat.land_assoc]
    _ = 0 := by rw [hdisj, land_zero]
  have hcond : ¬(existing ||| allocate ≠ existing ^^^ allocate) := fun hx =>
    hx ((lor_eq_xor_iff existing allocate).2 hdisj)
  have hsubPT : ∀ x ∈ PathTypes, x ∈ PathTypes := fun x hx => hx
  have hndPT : PathTypes.Nodup := by decide
  have hdisjPT : ∀ a ∈ PathTypes, ∀ b ∈ PathTypes, a ≠ b → a &&& b = 0 := by decide
  rcases hE : existingLoop st index sid PathTypes existing emptySectorPaths emptySectorPaths
    with ⟨out0, ids0, rem0⟩
  obtain ⟨hEP, _⟩ := existingLoop_spec st index sid PathTypes existing
    emptySectorPaths emptySectorPaths out0 ids0 rem0 hsubPT hndPT hE
  obtain ⟨_, hPe⟩ := hEP ft hft hbit
  refine ⟨?_, ?_, ?_⟩
  · have hdisj2 : (existing ^^^ ft) &&& allocate = 0 := by
      rw [xor_land_distrib, hdisj, hfta, Nat.xor_self]
    have hcond2 : ¬((existing ^^^ ft) ||| allocate ≠ (existing ^^^ ft) ^^^ allocate) :=
      fun hx => hx ((lor_eq_xor_iff _ allocate).2 hdisj2)
    have hpair := existingLoop_noop_drop st index sid ft hft
      (Or.inl ⟨e, herr⟩) PathTypes existing
      emptySectorPaths emptySectorPaths hsubPT hbit
    rcases hE2 : existingLoop st index sid PathTypes (existing ^^^ ft)
      emptySectorPaths emptySectorPaths with ⟨out1, ids1, rem1⟩
    rw [hE, hE2] at hpair
    injection hpair with p1 p2
    subst p1
    subst p2
    simp only [AcquireSector, if_neg hcond, if_neg hcond2, hE, hE2]
  · intro out ids hAcq
    simp only [AcquireSector, if_neg hcond, hE] at hAcq
    cases hA : allocLoop st index sid spt pt PathTypes allocate out0 ids0 with
    | error e2 =>
      rw [hA] at hAcq
      exact Except.noConfusion hAcq
    | ok r =>
      rcases r with ⟨out', ids', rem'⟩
      rw [hA] at hAcq
      injection hAcq with hAcq
      injection hAcq with h1 h2
      subst h1
      subst h2
      obtain ⟨hv1, _⟩ := hPe e herr
      obtain ⟨_, hFrame⟩ := allocLoop_ok_spec st index sid spt pt PathTypes allocate
        out0 ids0 out' ids' rem' hsubPT hndPT hdisjPT hA
      obtain ⟨f1, _⟩ := hFrame ft (Or.inr hfta)
      rw [f1, hv1, PathByType_empty]
  · intro ft' hft' hbit' hex
    obtain ⟨e'', hA⟩ := allocLoop_bestAllocError st index sid spt pt PathTypes allocate
      out0 ids0 hsubPT hdisjPT ⟨ft', hft', hbit', hex⟩
    refine ⟨e'', ?_⟩
    simp only [AcquireSector, if_neg hcond, hE, hA]

/-- An index whose find call fails for unsealed files but whose best-alloc
ranking works. -/
def idxE : SectorIndex where
  StorageFindSector := fun _ ft _ =>
    if ft = FTUnsealed then .error "index down" else .ok [⟨"s1", true⟩]
  StorageBestAlloc := fun _ _ _ => .ok [infoS2, infoS1]
  StorageInfoOf := fun i => .ok (if i = "s1" then infoS1 else infoS2)
  StorageDropSector := fun _ _ _ => .ok ()
  StorageDeclareSector := fun _ _ _ _ => .ok ()

/-- Witness for C10 on the failing-find fixture: requesting unsealed as
existing and sealed as allocate. -/
theorem acquireSector_find_error_witness :
    (AcquireSector stW idxE sidW 0 1 2 PathSealing AcquireMode.move =
      AcquireSector stW idxE sidW 0 (1 ^^^ 1) 2 PathSealing AcquireMode.move) ∧
    (∀ out ids,
      AcquireSector stW idxE sidW 0 1 2 PathSealing AcquireMode.move = .ok (out, ids) →
      PathByType out 1 = "") ∧
    (∀ ft' ∈ PathTypes, ft' &&& 2 ≠ 0 →
      (∃ e', idxE.StorageBestAlloc ft' 0 PathSealing = .error e') →
      ∃ e'', AcquireSector stW idxE sidW 0 1 2 PathSealing AcquireMode.move = .error e'') :=
  acquireSector_find_error_spec stW idxE sidW 0 1 2 PathSealing AcquireMode.move 1
    "index down" (by decide) (by decide) (by decide) rfl

/-- A read-only (Weight-0) sealing-capable candidate on the registered
path `s1`. -/
def infoW0 : StorageInfo :=
  { ID := "s1", URLs := [], Weight := 0, CanSeal := true, CanStore := false }

/-- An index whose best-alloc response contains only the Weight-0 candidate. -/
def idx0 : SectorIndex where
  StorageFindSector := fun _ _ _ => .ok []
  StorageBestAlloc := fun _ _ _ => .ok [infoW0]
  StorageInfoOf := fun _ => .ok infoW0
  StorageDropSector := fun _ _ _ => .ok ()
  StorageDeclareSector := fun _ _ _ _ => .ok ()

/-- C8 counterexample: `AcquireSector` applies no Weight filter.  With an
index response whose only candidate has Weight 0 (registered, non-empty
root, sealing-capable), the call succeeds and selects exactly that Weight-0
StorageID as the allocation target, so the claim as stated is false. -/
theorem acquireSector_weight_zero_counterexample :
    idx0.StorageBestAlloc 2 0 PathSealing = .ok [infoW0] ∧
    infoW0.Weight = 0 ∧
    AcquireSector stW idx0 sidW 0 0 2 PathSealing AcquireMode.move =
      .ok (⟨"", "/p1/sealed/s-t01000-1", ""⟩, ⟨"", "s1", ""⟩) ∧
    PathByType (⟨"", "s1", ""⟩ : SectorPaths) 2 = infoW0.ID := by
  decide

/-- C8 amended: `AcquireSector` itself never filters on Weight; what holds is
that the candidate resolved for an allocate type is always a member of the
index's returned candidate list, so its Weight is nonzero whenever every
candidate in that response has nonzero Weight (the Weight invariant is the
index's responsibility, not this engine's). -/
theorem acquireSector_weight_member_spec (st : Local) (index : SectorIndex)
    (sid : SectorID) (spt : RegisteredProof) (existing allocate : SectorFileType)
    (pt : PathType) (op : AcquireMode) (ft : Nat)
    (hft : ft ∈ PathTypes) (hbit : ft &&& allocate ≠ 0)
    (sis : List StorageInfo) (hba : index.StorageBestAlloc ft spt pt = .ok sis)
    (hW : ∀ c ∈ sis, c.Weight ≠ 0)
    (out ids : SectorPaths)
    (hAcq : AcquireSector st index sid spt existing allocate pt op = .ok (out, ids)) :
    ∃ c ∈ sis, PathByType ids ft = c.ID ∧ c.Weight ≠ 0 := by
  have hsubPT : ∀ x ∈ PathTypes, x ∈ PathTypes := fun x hx => hx
  have hndPT : PathTypes.Nodup := by decide
  have hdisjPT : ∀ a ∈ PathTypes, ∀ b ∈ PathTypes, a ≠ b → a &&& b = 0 := by decide
  by_cases hcond : existing ||| allocate ≠ existing ^^^ allocate
  · rw [AcquireSector, if_pos hcond] at hAcq
    exact Except.noConfusion hAcq
  · rcases hE : existingLoop st index sid PathTypes existing emptySectorPaths emptySectorPaths
      with ⟨out0, ids0, rem0⟩
    simp only [AcquireSector, if_neg hcond, hE] at hAcq
    cases hA : allocLoop st index sid spt pt PathTypes allocate out0 ids0 with
    | error e =>
      rw [hA] at hAcq
      exact Except.noConfusion hAcq
    | ok r =>
      rcases r with ⟨out', ids', rem'⟩
      rw [hA] at hAcq
      injection hAcq with hAcq
      injection hAcq with h1 h2
      subst h1
      subst h2
      obtain ⟨hP, _⟩ := allocLoop_ok_spec st index sid spt pt PathTypes allocate
        out0 ids0 out' ids' rem' hsubPT hndPT hdisjPT hA
      obtain ⟨sis2, c, hba2, hlast2, _, hv2⟩ := hP ft hft hbit
      rw [hba] at hba2
      injection hba2 with hs
      subst hs
      exact ⟨c, lastUsable_mem st pt sis c hlast2, hv2, hW c (lastUsable_mem st pt sis c hlast2)⟩

/-- Witness for the amended C8: on the well-behaved fixture (all weights 10)
the selected sealed-allocation candidate is a member of the index response
with nonzero weight. -/
theorem acquireSector_weight_member_witness :
    ∃ c ∈ [infoS2, infoS1],
      PathByType (⟨"", "s1", ""⟩ : SectorPaths) 2 = c.ID ∧ c.Weight ≠ 0 :=
  acquireSector_weight_member_spec stW idxW sidW 0 0 2 PathSealing AcquireMode.move 2
    (by decide) (by decide) [infoS2, infoS1] rfl (by decide)
    ⟨"", "/p1/sealed/s-t01000-1", ""⟩ ⟨"", "s1", ""⟩ (by decide)

/-! ### Removal lemmas -/

/-- `RemoveCopies`' holder loop equals `Remove`'s holder loop run on the
non-primary holders only. -/
theorem removeCopiesLoop_eq_filter (st : Local) (index : SectorIndex) (fs : FsEnv)
    (sid : SectorID) (typ : SectorFileType) :
    ∀ si, removeCopiesLoop st index fs sid typ si =
      removeLoop st index fs sid typ (si.filter (fun info => !info.Primary)) := by
  intro si
  induction si with
  | nil => rfl
  | cons info rest ih =>
    cases hp : info.Primary with
    | true =>
      have hfil : List.filter (fun info => !info.Primary) (info :: rest) =
          List.filter (fun info => !info.Primary) rest := by
        simp [List.filter_cons, hp]
      rw [removeCopiesLoop, if_pos hp, hfil]
      exact ih
    | false =>
      have hfil : List.filter (fun info => !info.Primary) (info :: rest) =
          info :: List.filter (fun info => !info.Primary) rest := by
        simp [List.filter_cons, hp]
      rw [removeCopiesLoop, if_neg (by rw [hp]; exact Bool.false_ne_true),
        hfil, removeLoop, ih]

/-- If some holder's removal fails fatally, the holder loop reports an
error. -/
theorem removeLoop_some_of_mem (st : Local) (index : SectorIndex) (fs : FsEnv)
    (sid : SectorID) (typ : SectorFileType) :
    ∀ (si : List SectorStorageInfo) (info : SectorStorageInfo), info ∈ si →
      (removeSector st index fs sid typ info.ID).2 ≠ none →
      (removeLoop st index fs sid typ si).2 ≠ none := by
  intro si
  induction si with
  | nil => intro info hmem; exact absurd hmem (List.not_mem_nil info)
  | cons a rest ih =>
    intro info hmem herr
    rcases hr : removeSector st index fs sid typ a.ID with ⟨evs, r⟩
    cases r with
    | some e =>
      rw [removeLoop, hr]
      exact fun hc => Option.noConfusion hc
    | none =>
      rw [removeLoop, hr]
      rcases List.mem_cons.1 hmem with heq | hmem'
      · subst heq
        rw [hr] at herr
        exact absurd rfl herr
      · rcases hrest : removeLoop st index fs sid typ rest with ⟨evs', r'⟩
        have := ih info hmem' herr
        rw [hrest] at this
        exact this

/-- C3: with a single-bit file type and a successful index lookup,
`RemoveCopies` is an error-free no-op (no events) when no holder is marked
primary, and otherwise performs exactly `Remove`'s per-holder removal
sequence on the non-primary holders — a primary holder is never passed to
the delete path. -/
theorem removeCopies_spec (st : Local) (index : SectorIndex) (fs : FsEnv)
    (sid : SectorID) (typ : SectorFileType)
    (h1 : onesCount typ = 1)
    (si : List SectorStorageInfo)
    (hfind : index.StorageFindSector sid typ false = .ok si) :
    ((∀ info ∈ si, info.Primary = false) →
      RemoveCopies st index fs sid typ = ([], none)) ∧
    ((∃ info ∈ si, info.Primary = true) →
      RemoveCopies st index fs sid typ =
        removeLoop st index fs sid typ (si.filter (fun info => !info.Primary))) := by
  have hone : ¬(onesCount typ ≠ 1) := fun hc => hc h1
  constructor
  · intro hall
    have hany : ¬(si.any (fun info => info.Primary) = true) := by
      intro hc
      obtain ⟨x, hx, hpx⟩ := List.any_eq_true.1 hc
      rw [hall x hx] at hpx
      exact Bool.false_ne_true hpx
    simp only [RemoveCopies, if_neg hone, hfind, if_neg hany]
  · intro hex
    have hany : si.any (fun info => info.Primary) = true :=
      List.any_eq_true.2 hex
    simp only [RemoveCopies, if_neg hone, hfind, if_pos hany]
    exact removeCopiesLoop_eq_filter st index fs sid typ si

/-- An index reporting only non-primary holders. -/
def idxNP : SectorIndex where
  StorageFindSector := fun _ _ _ => .ok [⟨"s1", false⟩, ⟨"s2", false⟩]
  StorageBestAlloc := fun _ _ _ => .ok [infoS2, infoS1]
  StorageInfoOf := fun i => .ok (if i = "s1" then infoS1 else infoS2)
  StorageDropSector := fun _ _ _ => .ok ()
  StorageDeclareSector := fun _ _ _ _ => .ok ()

/-- Witness for C3: with no primary holder `RemoveCopies` is a no-op; with a
primary holder it removes exactly the non-primary holders. -/
theorem removeCopies_witness :
    (RemoveCopies stW idxNP fsW sidW 1 = ([], none)) ∧
    (RemoveCopies stW idxW fsW sidW 1 =
      removeLoop stW idxW fsW sidW 1
        ([⟨"s1", true⟩, ⟨"s2", false⟩].filter (fun info => !info.Primary))) :=
  ⟨(removeCopies_spec stW idxNP fsW sidW 1 (by decide)
      [⟨"s1", false⟩, ⟨"s2", false⟩] rfl).1 (by decide),
   (removeCopies_spec stW idxW fsW sidW 1 (by decide)
      [⟨"s1", true⟩, ⟨"s2", false⟩] rfl).2 ⟨⟨"s1", true⟩, by decide, rfl⟩⟩

/-- C4: for a holder registered with a non-empty mount root, the index drop
happens strictly before the on-disk delete: an index-drop failure aborts
`removeSector` with an error and produces no events (nothing deleted), while
on a successful drop the trace contains the index drop at an earlier
position than the file delete and the result carries no error for every
filesystem behaviour (delete failures are never propagated); at the `Remove`
level a fatal holder removal makes the whole call fail. -/
theorem removeSector_index_first_spec (st : Local) (index : SectorIndex) (fs : FsEnv)
    (sid : SectorID) (typ : SectorFileType) (storage : ID) (p : path)
    (hp : st.findPath storage = some p) (hloc : p.loc ≠ "") :
    (∀ e, index.StorageDropSector storage sid typ = .error e →
      removeSector st index fs sid typ storage = ([], some (.dropFailed e))) ∧
    (index.StorageDropSector storage sid typ = .ok () →
      ∃ evs, removeSector st index fs sid typ storage = (evs, none) ∧
        ∃ i j, i < j ∧
          evs.get? i = some (.dropIndex storage sid typ) ∧
          evs.get? j = some (.deleteFile
            (filepathJoin3 p.loc (ftString typ) (SectorName sid)))) ∧
    (∀ (force : Bool) (si : List SectorStorageInfo), onesCount typ = 1 →
      index.StorageFindSector sid typ false = .ok si →
      ∀ info ∈ si, (removeSector st index fs sid typ info.ID).2 ≠ none →
      (Remove st index fs sid typ force).2 ≠ none) := by
  refine ⟨?_, ?_, ?_⟩
  · intro e he
    simp only [removeSector, hp, if_neg hloc, he]
  · intro hok
    cases hdel : fs.removeAllOk (filepathJoin3 p.loc (ftString typ) (SectorName sid)) with
    | true =>
      refine ⟨[.dropIndex storage sid typ,
        .deleteFile (filepathJoin3 p.loc (ftString typ) (SectorName sid))], ?_, 0, 1,
        Nat.zero_lt_one, rfl, rfl⟩
      simp only [removeSector, hp, if_neg hloc, hok, hdel, if_pos]
    | false =>
      refine ⟨[.dropIndex storage sid typ,
        .deleteFile (filepathJoin3 p.loc (ftString typ) (SectorName sid)),
        .logDeleteError (filepathJoin3 p.loc (ftString typ) (SectorName sid))], ?_, 0, 1,
        Nat.zero_lt_one, rfl, rfl⟩
      simp only [removeSector, hp, if_neg hloc, hok, hdel]
      rw [if_neg Bool.false_ne_true]
  · intro force si h1 hfind info hmem herr
    have hone : ¬(onesCount typ ≠ 1) := fun hc => hc h1
    have hlen : ¬(si.length = 0 ∧ force = false) := by
      intro ⟨hl, _⟩
      rw [List.length_eq_zero] at hl
      subst hl
      exact List.not_mem_nil info hmem
    simp only [Remove, if_neg hone, hfind, if_neg hlen]
    exact removeLoop_some_of_mem st index fs sid typ si info hmem herr

/-- An index whose drop call fails. -/
def idxDF : SectorIndex where
  StorageFindSector := fun _ _ _ => .ok [⟨"s1", true⟩]
  StorageBestAlloc := fun _ _ _ => .ok [infoS2, infoS1]
  StorageInfoOf := fun i => .ok (if i = "s1" then infoS1 else infoS2)
  StorageDropSector := fun _ _ _ => .error "drop failed"
  StorageDeclareSector := fun _ _ _ _ => .ok ()

/-- A filesystem on which every delete and move fails. -/
def fsBad : FsEnv := ⟨fun _ => false, fun _ _ => false⟩

/-- Witness for C4: with a failing index drop, `removeSector` aborts with no
events; with a working index but a failing filesystem delete, it still
succeeds with the drop event before the delete event. -/
theorem removeSector_index_first_witness :
    (removeSector stW idxDF fsW sidW 2 "s1" = ([], some (.dropFailed "drop failed"))) ∧
    (∃ evs, removeSector stW idxW fsBad sidW 2 "s1" = (evs, none) ∧
      ∃ i j, i < j ∧
        evs.get? i = some (.dropIndex "s1" sidW 2) ∧
        evs.get? j = some (.deleteFile
          (filepathJoin3 "/p1" (ftString 2) (SectorName sidW)))) :=
  ⟨(removeSector_index_first_spec stW idxDF fsW sidW 2 "s1" ⟨"/p1"⟩
      (by decide) (by decide)).1 "drop failed" rfl,
   (removeSector_index_first_spec stW idxW fsBad sidW 2 "s1" ⟨"/p1"⟩
      (by decide) (by decide)).2.1 rfl⟩

/-- C5: `Remove` fails with the single-file-type error when more than one bit
is set; with exactly one bit and zero holders it fails with sector-not-found
when `force` is false and succeeds as a no-op (no events, no delete) when
`force` is true. -/
theorem remove_edge_cases_spec (st : Local) (index : SectorIndex) (fs : FsEnv)
    (sid : SectorID) (typ : SectorFileType) (force : Bool) :
    (1 < onesCount typ →
      Remove st index fs sid typ force = ([], some .singleFileTypeRequired)) ∧
    (onesCount typ = 1 →
      index.StorageFindSector sid typ false = .ok [] →
      (force = false → Remove st index fs sid typ force = ([], some .sectorNotFound)) ∧
      (force = true → Remove st index fs sid typ force = ([], none))) := by
  constructor
  · intro hgt
    have hne : onesCount typ ≠ 1 := by omega
    simp only [Remove, if_pos hne]
  · intro h1 hfind
    have hone : ¬(onesCount typ ≠ 1) := fun hc => hc h1
    constructor
    · intro hforce
      subst hforce
      simp [Remove, hone, hfind]
    · intro hforce
      subst hforce
      simp [Remove, hone, hfind, removeLoop]

/-- Witness for C5: a two-bit request fails with the single-type error; a
single-bit request with zero holders fails without force and no-ops with
force. -/
theorem remove_edge_cases_witness :
    (1 < onesCount 3 ∧
      Remove stW idxW fsW sidW 3 false = ([], some .singleFileTypeRequired)) ∧
    (Remove stW idx0 fsW sidW 2 false = ([], some .sectorNotFound)) ∧
    (Remove stW idx0 fsW sidW 2 true = ([], none)) :=
  ⟨⟨by decide, (remove_edge_cases_spec stW idxW fsW sidW 3 false).1 (by decide)⟩,
   ((remove_edge_cases_spec stW idx0 fsW sidW 2 false).2 (by decide) rfl).1 rfl,
   ((remove_edge_cases_spec stW idx0 fsW sidW 2 true).2 (by decide) rfl).2 rfl⟩

/-- C6: after resolving destination and source, `MoveStorage` runs the
per-type loop; for each requested type the move is skipped (no events) when
the resolved source and destination StorageIDs coincide or when the source
is storage-capable; otherwise the source holder is dropped from the index
first (a drop failure aborts before any move), the filesystem move is
attempted next (a move failure aborts before any declare), and only after a
successful move is the destination holder declared with primary status. -/
theorem moveStorage_per_type_spec (st : Local) (index : SectorIndex) (fs : FsEnv)
    (s : SectorID) (spt : RegisteredProof) (types : SectorFileType)
    (dest destIds src srcIds : SectorPaths)
    (hdest : AcquireSector st index s spt FTNone types PathStorage AcquireMode.move =
      .ok (dest, destIds))
    (hsrc : AcquireSector st index s spt types FTNone PathStorage AcquireMode.move =
      .ok (src, srcIds)) :
    (MoveStorage st index fs s spt types =
      moveLoop st index fs s dest destIds src srcIds PathTypes types) ∧
    (∀ (ft : SectorFileType) (rest : List SectorFileType), ft &&& types ≠ 0 →
      ∀ sst dst : StorageInfo,
        index.StorageInfoOf (PathByType srcIds ft) = .ok sst →
        index.StorageInfoOf (PathByType destIds ft) = .ok dst →
        ((sst.ID = dst.ID →
          moveLoop st index fs s dest destIds src srcIds (ft :: rest) types =
            moveLoop st index fs s dest destIds src srcIds rest types) ∧
         (sst.ID ≠ dst.ID → sst.CanStore = true →
          moveLoop st index fs s dest destIds src srcIds (ft :: rest) types =
            moveLoop st index fs s dest destIds src srcIds rest types) ∧
         (sst.ID ≠ dst.ID → sst.CanStore = false →
           (∀ e, index.StorageDropSector (PathByType srcIds ft) s ft = .error e →
             moveLoop st index fs s dest destIds src srcIds (ft :: rest) types =
               ([], some (.dropFailed e))) ∧
           (index.StorageDropSector (PathByType srcIds ft) s ft = .ok () →
             (fs.moveOk (PathByType src ft) (PathByType dest ft) = false →
               moveLoop st index fs s dest destIds src srcIds (ft :: rest) types =
                 ([.dropIndex (PathByType srcIds ft) s ft,
                   .moveFile (PathByType src ft) (PathByType dest ft)],
                  some .moveFailed)) ∧
             (fs.moveOk (PathByType src ft) (PathByType dest ft) = true →
               index.StorageDeclareSector (PathByType destIds ft) s ft true = .ok () →
               moveLoop st index fs s dest destIds src srcIds (ft :: rest) types =
                 ([.dropIndex (PathByType srcIds ft) s ft,
                   .moveFile (PathByType src ft) (PathByType dest ft),
                   .declareSector (PathByType destIds ft) s ft true] ++
                    (moveLoop st index fs s dest destIds src srcIds rest types).1,
                  (moveLoop st index fs s dest destIds src srcIds rest types).2)))))) := by
  constructor
  · simp only [MoveStorage, hdest, hsrc]
  · intro ft rest hbit sst dst hsst hdst
    refine ⟨?_, ?_, ?_⟩
    · intro hid
      simp only [moveLoop, if_neg hbit, hsst, hdst, if_pos hid]
    · intro hid hstore
      simp only [moveLoop, if_neg hbit, hsst, hdst, if_neg hid, if_pos hstore]
    · intro hid hstore
      constructor
      · intro e he
        simp only [moveLoop, if_neg hbit, hsst, hdst, if_neg hid, hstore, he]
        rw [if_neg Bool.false_ne_true]
      · intro hdrop
        constructor
        · intro hmove
          simp only [moveLoop, if_neg hbit, hsst, hdst, if_neg hid, hstore, hdrop, hmove]
          rw [if_neg Bool.false_ne_true, if_neg Bool.false_ne_true]
        · intro hmove hdecl
          rcases hr : moveLoop st index fs s dest destIds src srcIds rest types
            with ⟨evs, r⟩
          simp only [moveLoop, if_neg hbit, hsst, hdst, if_neg hid, hstore, hdrop,
            hmove, hdecl, hr]
          simp

/-- The destination paths resolved by the C6 witness scenario. -/
def destW : SectorPaths := ⟨"", "/p2/sealed/s-t01000-1", ""⟩
/-- The destination StorageIDs resolved by the C6 witness scenario. -/
def destIdsW : SectorPaths := ⟨"", "s2", ""⟩
/-- The source paths resolved by the C6 witness scenario. -/
def srcW : SectorPaths := ⟨"", "/p1/sealed/s-t01000-1", ""⟩
/-- The source StorageIDs resolved by the C6 witness scenario. -/
def srcIdsW : SectorPaths := ⟨"", "s1", ""⟩

/-- Witness for C6: moving the sealed file from the sealing-only path `s1`
to the storage-capable path `s2` drops the source from the index, moves the
file, then declares the destination with primary status. -/
theorem moveStorage_witness :
    (MoveStorage stW idxW fsW sidW 0 2 =
      moveLoop stW idxW fsW sidW destW destIdsW srcW srcIdsW PathTypes 2) ∧
    (moveLoop stW idxW fsW sidW destW destIdsW srcW srcIdsW [2] 2 =
      ([.dropIndex (PathByType srcIdsW 2) sidW 2,
        .moveFile (PathByType srcW 2) (PathByType destW 2),
        .declareSector (PathByType destIdsW 2) sidW 2 true] ++
          (moveLoop stW idxW fsW sidW destW destIdsW srcW srcIdsW [] 2).1,
       (moveLoop stW idxW fsW sidW destW destIdsW srcW srcIdsW [] 2).2)) :=
  have h := moveStorage_per_type_spec stW idxW fsW sidW 0 2 destW destIdsW srcW srcIdsW
    rfl rfl
  ⟨h.1,
   ((((h.2 2 [] (by decide) infoS1 infoS2 rfl rfl).2.2 (by decide) rfl).2 rfl).2 rfl) rfl⟩

/-- C9 (code bug): the health reporter's sleep interval equals the base
heartbeat interval EXACTLY for every possible random draw (`rand.Int63n
10_000` produces the values `r % 10000`): the integer division by 100 000
cancels the added sub-100000 term, so the interval is never below or above
the base — no ±10% jitter happens, contradicting the code's own comment. -/
theorem reportHealth_interval_no_jitter (HeartbeatInterval r : Nat) :
    reportHealthInterval HeartbeatInterval (r % 10000) = HeartbeatInterval := by
  rw [reportHealthInterval]
  have hr : r % 10000 < 100000 :=
    lt_of_lt_of_le (Nat.mod_lt r (by decide)) (by decide)
  rw [Nat.mul_comm, Nat.mul_add_div (by decide), Nat.div_eq_of_lt hr, Nat.add_zero]

end SectorStorage
